import Mathlib

/-!
Shallow embedding of the Health-chain-stellar blood-supply-chain contracts.

Three contract surfaces are embedded:
* `HealthChain` — `src/contracts/src/lib.rs` (the `HealthChainContract`);
* `Inventory`   — `src/lifebank-soroban/contracts/inventory` (its `types.rs`,
  `validation.rs` and `error.rs` are not present under `src/`, so the status
  machine pieces they define are modelled from the spec, as marked below);
* `Requests`    — `src/lifebank-soroban/contracts/requests`.

Host conventions: addresses, symbols and u64/u32 values are `Nat` (u32
arithmetic that can overflow is made explicit where it occurs, e.g. the
saturating add in `check_availability`); `soroban_sdk::Map` keyed by `u64`
is an ordered map, embedded as a key-sorted association list whose list
order is its iteration order; `require_auth` is the host's caller proof and
is not a state transition. Each contract entry point is embedded as a
function `State -> State x Except Error a` that performs storage writes in
the order the Rust body does ("raw" semantics, so partially written states
on an error path are visible); `hostCall` wraps an entry point with the
host's transactional commit: an invocation that returns an error is rolled
back and leaves storage unchanged (spec section 5).
-/

/-- Association lookup for host `Map` storage keyed by a decidable type. -/
def aGet {κ α : Type} [DecidableEq κ] : List (κ × α) → κ → Option α
  | [], _ => none
  | (k1, v1) :: t, k => if k = k1 then some v1 else aGet t k

/-- Association update (replace in place, append if absent). -/
def aSet {κ α : Type} [DecidableEq κ] : List (κ × α) → κ → α → List (κ × α)
  | [], k, v => [(k, v)]
  | (k1, v1) :: t, k, v => if k = k1 then (k, v) :: t else (k1, v1) :: aSet t k v

/-- Lookup in a `u64`-keyed soroban `Map` (key-sorted association list). -/
def mapGet {α : Type} : List (Nat × α) → Nat → Option α
  | [], _ => none
  | (k1, v1) :: t, k => if k = k1 then some v1 else mapGet t k

/-- Update of a `u64`-keyed soroban `Map`, preserving the key-sorted order
that the host maintains (iteration over the map is in ascending key order). -/
def mapSet {α : Type} : List (Nat × α) → Nat → α → List (Nat × α)
  | [], k, v => [(k, v)]
  | (k1, v1) :: t, k, v =>
    if k < k1 then (k, v) :: (k1, v1) :: t
    else if k = k1 then (k, v) :: t
    else (k1, v1) :: mapSet t k v

/-- `true` exactly on the error constructor of `Except`. -/
def isErr {ε α : Type} : Except ε α → Bool
  | .error _ => true
  | .ok _ => false

/-- The host's transactional commit around one contract invocation: a
successful invocation commits its writes, a failed one is rolled back and
observably leaves storage unchanged (spec section 5). -/
def hostCall {σ ε α : Type} (f : σ → σ × Except ε α) (st : σ) : σ × Except ε α :=
  match f st with
  | (st1, .ok a) => (st1, .ok a)
  | (_, .error e) => (st, .error e)

/-- Blood type enumeration (identical in all three contract surfaces). -/
inductive BloodType
  | APositive | ANegative | BPositive | BNegative
  | ABPositive | ABNegative | OPositive | ONegative
deriving DecidableEq, Repr

/-- Blood unit status enumeration of `src/contracts/src/lib.rs`; the
inventory contract's own `BloodStatus` (its `types.rs` is not under `src/`)
is modelled from the spec with the same six states. -/
inductive BloodStatus
  | Available | Reserved | InTransit | Delivered | Expired | Discarded
deriving DecidableEq, Repr

/-- Modelled from the spec: terminal blood-unit states are Delivered,
Expired, Discarded (spec sections 3 and 4.2); the inventory contract's
`BloodStatus::is_terminal` lives in its `types.rs`, which is not under
`src/`. -/
def BloodStatus.is_terminal : BloodStatus → Bool
  | .Delivered => true
  | .Expired => true
  | .Discarded => true
  | _ => false

namespace HealthChain

/-- Error enum of `src/contracts/src/lib.rs`. -/
inductive Error
  | Unauthorized | InvalidQuantity | InvalidExpiration | DuplicateRegistration
  | StorageError | InvalidStatus | UnitNotFound | UnitExpired
  | UnauthorizedHospital | InvalidTransition | AlreadyAllocated
  | BatchSizeExceeded | DuplicateRequest | InvalidDeliveryAddress
  | InvalidRequiredBy
deriving DecidableEq, Repr

/-- Withdrawal reason enumeration. -/
inductive WithdrawalReason
  | Used | Contaminated | Damaged | Other
deriving DecidableEq, Repr

/-- Urgency level enumeration of `src/contracts/src/lib.rs`. -/
inductive UrgencyLevel
  | Low | Medium | Routine | High | Urgent | Critical
deriving DecidableEq, Repr

/-- Request status enumeration of `src/contracts/src/lib.rs`. -/
inductive RequestStatus
  | Pending | Approved | InProgress | Fulfilled | Cancelled | Rejected
deriving DecidableEq, Repr

/-- Blood unit inventory record (`BloodUnit` struct). -/
structure BloodUnit where
  id : Nat
  blood_type : BloodType
  quantity : Nat
  expiration_date : Nat
  donor_id : String
  location : String
  bank_id : Nat
  registration_timestamp : Nat
  status : BloodStatus
  recipient_hospital : Option Nat
  allocation_timestamp : Option Nat
  transfer_timestamp : Option Nat
  delivery_timestamp : Option Nat
deriving DecidableEq, Repr

/-- Status change event appended to the per-unit HISTORY vector. -/
structure StatusChangeEvent where
  blood_unit_id : Nat
  old_status : BloodStatus
  new_status : BloodStatus
  actor : Nat
  timestamp : Nat
deriving DecidableEq, Repr

/-- Blood request record (`BloodRequest` struct of the HealthChain contract). -/
structure BloodRequest where
  id : Nat
  hospital_id : Nat
  blood_type : BloodType
  quantity_ml : Nat
  urgency : UrgencyLevel
  required_by : Nat
  delivery_address : String
  created_at : Nat
  status : RequestStatus
  fulfillment_timestamp : Option Nat
  reserved_unit_ids : List Nat
deriving DecidableEq, Repr

/-- Key for detecting duplicate requests (`RequestKey` struct). -/
structure RequestKey where
  hospital_id : Nat
  blood_type : BloodType
  quantity_ml : Nat
  urgency : UrgencyLevel
  required_by : Nat
  delivery_address : String
deriving DecidableEq, Repr

/-- The HealthChain contract's storage: ADMIN, BANKS, HOSPS, UNITS,
NEXT_ID, REQUESTS, NEXT_REQ, REQ_KEYS and the per-unit HISTORY entries. -/
structure State where
  admin : Option Nat
  banks : List (Nat × Bool)
  hospitals : List (Nat × Bool)
  units : List (Nat × BloodUnit)
  nextId : Option Nat
  requests : List (Nat × BloodRequest)
  nextRequestId : Option Nat
  requestKeys : List (RequestKey × Nat)
  history : List (Nat × List StatusChangeEvent)
deriving DecidableEq, Repr

def MIN_REQUEST_ML : Nat := 50
def MAX_REQUEST_ML : Nat := 5000
def MAX_BATCH_SIZE : Nat := 100

/-- `initialize`: stores the admin unconditionally and returns the symbol
"init"; the source performs no already-initialized check. -/
def initContract (st : State) (admin : Nat) : State × Except Error String :=
  ({st with admin := some admin}, .ok "init")

/-- `is_blood_bank`. -/
def is_blood_bank (st : State) (bank : Nat) : Bool :=
  (aGet st.banks bank).getD false

/-- `is_hospital`. -/
def is_hospital (st : State) (hosp : Nat) : Bool :=
  (aGet st.hospitals hosp).getD false

/-- `record_status_change`: appends a `StatusChangeEvent` to the unit's
HISTORY vector (persisted immediately). -/
def record_status_change (st : State) (now uid : Nat)
    (old_status new_status : BloodStatus) (actor : Nat) : State :=
  let h := (mapGet st.history uid).getD []
  let h1 := h ++ [⟨uid, old_status, new_status, actor, now⟩]
  {st with history := mapSet st.history uid h1}

/-- `allocate_blood`. -/
def allocate_blood (st : State) (now : Nat) (bank_id uid hospital : Nat) :
    State × Except Error Unit :=
  if !(is_blood_bank st bank_id) then (st, .error .Unauthorized)
  else if !(is_hospital st hospital) then (st, .error .UnauthorizedHospital)
  else match mapGet st.units uid with
  | none => (st, .error .UnitNotFound)
  | some u =>
    if u.expiration_date ≤ now then (st, .error .UnitExpired)
    else if u.status ≠ BloodStatus.Available then (st, .error .InvalidStatus)
    else
      let u1 := {u with status := .Reserved, recipient_hospital := some hospital,
                        allocation_timestamp := some now}
      let st1 := {st with units := mapSet st.units uid u1}
      let st2 := record_status_change st1 now uid u.status .Reserved bank_id
      (st2, .ok ())

/-- Loop body of `batch_allocate_blood`: the units map is mutated locally
(committed only after the loop), while each `record_status_change` write is
persisted immediately. -/
def batchAllocGo (now : Nat) (bank hosp : Nat) :
    List Nat → State → List (Nat × BloodUnit) → List Nat →
    State × Except Error (List (Nat × BloodUnit) × List Nat)
  | [], st, units, acc => (st, .ok (units, acc))
  | uid :: rest, st, units, acc =>
    match mapGet units uid with
    | none => (st, .error .UnitNotFound)
    | some u =>
      if u.expiration_date ≤ now then (st, .error .UnitExpired)
      else if u.status ≠ BloodStatus.Available then (st, .error .InvalidStatus)
      else
        let u1 := {u with status := .Reserved, recipient_hospital := some hosp,
                          allocation_timestamp := some now}
        let st1 := record_status_change st now uid u.status .Reserved bank
        batchAllocGo now bank hosp rest st1 (mapSet units uid u1) (acc ++ [uid])

/-- `batch_allocate_blood`. -/
def batch_allocate_blood (st : State) (now : Nat) (bank : Nat)
    (unit_ids : List Nat) (hosp : Nat) : State × Except Error (List Nat) :=
  if MAX_BATCH_SIZE < unit_ids.length then (st, .error .BatchSizeExceeded)
  else if !(is_blood_bank st bank) then (st, .error .Unauthorized)
  else if !(is_hospital st hosp) then (st, .error .UnauthorizedHospital)
  else match batchAllocGo now bank hosp unit_ids st st.units [] with
  | (st1, .error e) => (st1, .error e)
  | (st1, .ok (units1, acc)) => ({st1 with units := units1}, .ok acc)

/-- `cancel_allocation`. -/
def cancel_allocation (st : State) (now : Nat) (bank_id uid : Nat) :
    State × Except Error Unit :=
  if !(is_blood_bank st bank_id) then (st, .error .Unauthorized)
  else match mapGet st.units uid with
  | none => (st, .error .UnitNotFound)
  | some u =>
    if u.status ≠ BloodStatus.Reserved then (st, .error .InvalidStatus)
    else
      let u1 := {u with status := .Available, recipient_hospital := none,
                        allocation_timestamp := none}
      let st1 := {st with units := mapSet st.units uid u1}
      let st2 := record_status_change st1 now uid u.status .Available bank_id
      (st2, .ok ())

/-- `initiate_transfer`. -/
def initiate_transfer (st : State) (now : Nat) (bank_id uid : Nat) :
    State × Except Error Unit :=
  if !(is_blood_bank st bank_id) then (st, .error .Unauthorized)
  else match mapGet st.units uid with
  | none => (st, .error .UnitNotFound)
  | some u =>
    if u.expiration_date ≤ now then (st, .error .UnitExpired)
    else if u.status ≠ BloodStatus.Reserved then (st, .error .InvalidStatus)
    else
      let u1 := {u with status := .InTransit, transfer_timestamp := some now}
      let st1 := {st with units := mapSet st.units uid u1}
      let st2 := record_status_change st1 now uid u.status .InTransit bank_id
      (st2, .ok ())

/-- `confirm_delivery`: note the expired-in-transit path writes the unit
back as Expired and records history before returning `UnitExpired`. -/
def confirm_delivery (st : State) (now : Nat) (hospital uid : Nat) :
    State × Except Error Unit :=
  if !(is_hospital st hospital) then (st, .error .UnauthorizedHospital)
  else match mapGet st.units uid with
  | none => (st, .error .UnitNotFound)
  | some u =>
    if u.recipient_hospital ≠ some hospital then (st, .error .Unauthorized)
    else if u.status ≠ BloodStatus.InTransit then (st, .error .InvalidStatus)
    else if u.expiration_date ≤ now then
      let u1 := {u with status := .Expired}
      let st1 := {st with units := mapSet st.units uid u1}
      let st2 := record_status_change st1 now uid u.status .Expired hospital
      (st2, .error .UnitExpired)
    else
      let u1 := {u with status := .Delivered, delivery_timestamp := some now}
      let st1 := {st with units := mapSet st.units uid u1}
      let st2 := record_status_change st1 now uid u.status .Delivered hospital
      (st2, .ok ())

/-- `withdraw_blood`: authorization aside, the source performs no status
check at all before setting the status to Discarded. -/
def withdraw_blood (st : State) (now : Nat) (caller uid : Nat)
    (_reason : WithdrawalReason) : State × Except Error Unit :=
  if !(is_blood_bank st caller) && !(is_hospital st caller) then
    (st, .error .Unauthorized)
  else match mapGet st.units uid with
  | none => (st, .error .UnitNotFound)
  | some u =>
    let u1 := {u with status := .Discarded}
    let st1 := {st with units := mapSet st.units uid u1}
    let st2 := record_status_change st1 now uid u.status .Discarded caller
    (st2, .ok ())

/-- `create_request` of the HealthChain contract. -/
def create_request (st : State) (now : Nat) (hospital_id : Nat)
    (blood_type : BloodType) (quantity_ml : Nat) (urgency : UrgencyLevel)
    (required_by : Nat) (delivery_address : String) :
    State × Except Error Nat :=
  if !((aGet st.hospitals hospital_id).getD false) then (st, .error .Unauthorized)
  else if quantity_ml < MIN_REQUEST_ML ∨ MAX_REQUEST_ML < quantity_ml then
    (st, .error .InvalidQuantity)
  else if delivery_address.length = 0 then (st, .error .InvalidDeliveryAddress)
  else if required_by ≤ now then (st, .error .InvalidRequiredBy)
  else
    let key : RequestKey :=
      ⟨hospital_id, blood_type, quantity_ml, urgency, required_by, delivery_address⟩
    match aGet st.requestKeys key with
    | some _ => (st, .error .DuplicateRequest)
    | none =>
      let rid := st.nextRequestId.getD 1
      let st1 := {st with nextRequestId := some (rid + 1)}
      let req : BloodRequest :=
        ⟨rid, hospital_id, blood_type, quantity_ml, urgency, required_by,
         delivery_address, now, .Pending, none, []⟩
      let st2 := {st1 with requests := mapSet st1.requests rid req}
      let st3 := {st2 with requestKeys := aSet st2.requestKeys key rid}
      (st3, .ok rid)

/-- `is_valid_status_transition` (request status transition table of the
HealthChain contract). -/
def is_valid_status_transition (old_status new_status : RequestStatus) : Bool :=
  match old_status, new_status with
  | .Pending, .Approved => true
  | .Pending, .Rejected => true
  | .Pending, .Cancelled => true
  | .Approved, .InProgress => true
  | .Approved, .Cancelled => true
  | .InProgress, .Fulfilled => true
  | .InProgress, .Cancelled => true
  | _, _ => false

/-- `update_request_status` (status-change recording only emits an event,
so it does not touch storage). -/
def update_request_status (st : State) (rid : Nat) (new_status : RequestStatus) :
    State × Except Error Unit :=
  match mapGet st.requests rid with
  | none => (st, .error .UnitNotFound)
  | some req =>
    if !(is_valid_status_transition req.status new_status) then
      (st, .error .InvalidTransition)
    else
      ({st with requests := mapSet st.requests rid {req with status := new_status}},
       .ok ())

/-- The unit-release loop of `cancel_request`: every reserved unit listed on
the request goes back to Available with recipient and allocation cleared. -/
def releaseUnits (ids : List Nat) (units : List (Nat × BloodUnit)) :
    List (Nat × BloodUnit) :=
  ids.foldl (fun us uid =>
    match mapGet us uid with
    | some u =>
      if u.status = BloodStatus.Reserved then
        mapSet us uid {u with status := .Available, recipient_hospital := none,
                              allocation_timestamp := none}
      else us
    | none => us) units

/-- `cancel_request` of the HealthChain contract; `contractAddr` is the
value of `env.current_contract_address()`.  Note that the REQ_KEYS
duplicate-detection map is not touched. -/
def cancel_request (st : State) (contractAddr rid : Nat) (_reason : String) :
    State × Except Error Unit :=
  match mapGet st.requests rid with
  | none => (st, .error .UnitNotFound)
  | some req =>
    if !(is_hospital st req.hospital_id) && !(is_blood_bank st contractAddr) then
      (st, .error .Unauthorized)
    else if req.status = RequestStatus.Fulfilled ∨ req.status = RequestStatus.Cancelled then
      (st, .error .InvalidStatus)
    else
      let units1 := releaseUnits req.reserved_unit_ids st.units
      let req1 := {req with status := .Cancelled, reserved_unit_ids := []}
      ({st with units := units1, requests := mapSet st.requests rid req1}, .ok ())

/-- Loop body of `fulfill_request`: only the recipient hospital of each
referenced unit is checked; neither the unit's status nor its expiration
is examined before it is marked Delivered. -/
def fulfillGo (now : Nat) (actor hosp : Nat) :
    List Nat → State → List (Nat × BloodUnit) →
    State × Except Error (List (Nat × BloodUnit))
  | [], st, units => (st, .ok units)
  | uid :: rest, st, units =>
    match mapGet units uid with
    | none => (st, .error .UnitNotFound)
    | some u =>
      if u.recipient_hospital ≠ some hosp then (st, .error .Unauthorized)
      else
        let u1 := {u with status := .Delivered, delivery_timestamp := some now}
        let st1 := record_status_change st now uid u.status .Delivered actor
        fulfillGo now actor hosp rest st1 (mapSet units uid u1)

/-- `fulfill_request` of the HealthChain contract; `contractAddr` is the
value of `env.current_contract_address()`. -/
def fulfill_request (st : State) (now : Nat) (contractAddr rid : Nat)
    (unit_ids : List Nat) : State × Except Error Unit :=
  match mapGet st.requests rid with
  | none => (st, .error .UnitNotFound)
  | some req =>
    if !(is_blood_bank st contractAddr) then (st, .error .Unauthorized)
    else if req.status ≠ RequestStatus.Approved ∧ req.status ≠ RequestStatus.InProgress then
      (st, .error .InvalidStatus)
    else match fulfillGo now contractAddr req.hospital_id unit_ids st st.units with
    | (st1, .error e) => (st1, .error e)
    | (st1, .ok units1) =>
      let req1 := {req with status := .Fulfilled, fulfillment_timestamp := some now,
                            reserved_unit_ids := unit_ids}
      ({st1 with units := units1, requests := mapSet st1.requests rid req1}, .ok ())

/-- The filter of `query_by_blood_type` (matching type, Available,
sufficient quantity, strictly unexpired), in the source's test order. -/
def matchesQuery (bt : BloodType) (minQ now : Nat) (u : BloodUnit) : Bool :=
  decide (u.blood_type = bt) && decide (u.status = BloodStatus.Available)
    && decide (minQ ≤ u.quantity) && decide (now < u.expiration_date)

/-- One bubble pass over adjacent positions, swapping exactly when the left
expiration date is strictly greater than the right one. -/
def onePass : List BloodUnit → List BloodUnit
  | [] => []
  | [a] => [a]
  | a :: b :: t =>
    if b.expiration_date < a.expiration_date then b :: onePass (a :: t)
    else a :: onePass (b :: t)
termination_by l => l.length

/-- The outer loop of the source's bubble sort: pass `i` runs adjacent
comparisons over index positions `0..len-i-1`, i.e. one bubble pass over
the first `len - i` elements, leaving the rest of the vector in place. -/
def passes : Nat → List BloodUnit → List BloodUnit
  | 0, l => l
  | k + 1, l => passes k (onePass (l.take (k + 1)) ++ l.drop (k + 1))

/-- The full bubble sort of `query_by_blood_type` (ascending by
expiration date). -/
def bubbleSort (l : List BloodUnit) : List BloodUnit := passes l.length l

/-- `query_by_blood_type`: filter in map-iteration order, bubble sort by
expiration date, then truncate (`max_results = 0` means all results). -/
def query_by_blood_type (st : State) (now : Nat) (bt : BloodType)
    (min_quantity max_results : Nat) : List BloodUnit :=
  let temp := (st.units.map Prod.snd).filter (matchesQuery bt min_quantity now)
  let sorted := bubbleSort temp
  let limit := if max_results = 0 then temp.length else min max_results temp.length
  sorted.take limit

/-- The unit update applied by `allocate_blood` and `batch_allocate_blood`. -/
def reserveUnit (now hosp : Nat) (u : BloodUnit) : BloodUnit :=
  {u with status := .Reserved, recipient_hospital := some hosp,
          allocation_timestamp := some now}

/-- The unit update applied by the `fulfill_request` loop. -/
def deliverUnit (now : Nat) (u : BloodUnit) : BloodUnit :=
  {u with status := .Delivered, delivery_timestamp := some now}

/-- Whether a unit id would pass the per-element checks of
`batch_allocate_blood` against the pre-call state. -/
def goodUnit (st : State) (now uid : Nat) : Bool :=
  match mapGet st.units uid with
  | none => false
  | some u => decide (now < u.expiration_date) && decide (u.status = BloodStatus.Available)

/-- The error `batch_allocate_blood` raises for an invalid element, read
off the pre-call state. -/
def allocErrOf (st : State) (now uid : Nat) : Error :=
  match mapGet st.units uid with
  | none => .UnitNotFound
  | some u => if u.expiration_date ≤ now then .UnitExpired else .InvalidStatus

/-- u32::MAX, the cap of `saturating_add`. -/
def U32MAX : Nat := 4294967295

/-- Mathematical sum of the quantities of the Available, strictly
unexpired units of one blood type in a list. -/
def sumAvail (bt : BloodType) (now : Nat) (l : List BloodUnit) : Nat :=
  ((l.filter (fun u => decide (u.blood_type = bt)
      && decide (u.status = BloodStatus.Available)
      && decide (now < u.expiration_date))).map (fun u => u.quantity)).sum

/-- The summing loop of `check_availability` with its saturating add and
its early exit once the running total reaches the requested quantity. -/
def availLoop (bt : BloodType) (required now : Nat) :
    List BloodUnit → Nat → Bool
  | [], total => required ≤ total
  | u :: rest, total =>
    if decide (u.blood_type = bt) && decide (u.status = BloodStatus.Available)
        && decide (now < u.expiration_date) then
      let t := min (total + u.quantity) U32MAX
      if required ≤ t then true else availLoop bt required now rest t
    else availLoop bt required now rest total

/-- `check_availability`. -/
def check_availability (st : State) (now : Nat) (bt : BloodType)
    (required_quantity : Nat) : Bool :=
  availLoop bt required_quantity now (st.units.map Prod.snd) 0

end HealthChain

namespace Inventory

/-- Error enum of the inventory contract.  Its `error.rs` is not under
`src/`; the variants and codes are modelled from the spec's error taxonomy
(section 7) and corroborated by the contract's own tests (codes 2, 21, 23,
41 for Unauthorized, NotFound, BloodUnitExpired, InvalidStatusTransition). -/
inductive ContractError
  | AlreadyInitialized | NotInitialized | Unauthorized
  | InvalidQuantity | InvalidExpiration
  | NotFound | BloodUnitExpired | InvalidStatusTransition
  | NotAuthorizedBloodBank
deriving DecidableEq, Repr

/-- Blood unit record of the inventory contract (fields as constructed by
its `register_blood`). -/
structure BloodUnit where
  id : Nat
  blood_type : BloodType
  quantity_ml : Nat
  bank_id : Nat
  donor_id : Option Nat
  donation_timestamp : Nat
  expiration_timestamp : Nat
  status : BloodStatus
  metadata : List (String × String)
deriving DecidableEq, Repr

/-- Modelled from the spec: a unit is expired when the current time has
reached its expiration timestamp (spec section 4.2, "current time >=
expiration"); `BloodUnit::is_expired` lives in the inventory contract's
`types.rs`, which is not under `src/`.  The contract's own test marks a
unit expired at `expiration + 100` with error code 23. -/
def BloodUnit.is_expired (u : BloodUnit) (now : Nat) : Bool :=
  u.expiration_timestamp ≤ now

/-- Status change history record (`StatusChangeHistory`). -/
structure StatusChangeHistory where
  id : Nat
  blood_unit_id : Nat
  from_status : BloodStatus
  to_status : BloodStatus
  authorized_by : Nat
  changed_at : Nat
  reason : Option String
deriving DecidableEq, Repr

/-- Modelled from the spec: the blood-unit transition table of section 4.2
(Available to Reserved/Expired/Discarded; Reserved to Available/InTransit/
Expired/Discarded; InTransit to Delivered/Expired/Discarded; terminals to
nothing); `validation::validate_status_transition` lives in the inventory
contract's `validation.rs`, which is not under `src/`.  The contract's
tests corroborate these edges (for example Available to Delivered fails
with code 41 while Available to Expired succeeds). -/
def allowedTransition : BloodStatus → BloodStatus → Bool
  | .Available, .Reserved => true
  | .Available, .Expired => true
  | .Available, .Discarded => true
  | .Reserved, .Available => true
  | .Reserved, .InTransit => true
  | .Reserved, .Expired => true
  | .Reserved, .Discarded => true
  | .InTransit, .Delivered => true
  | .InTransit, .Expired => true
  | .InTransit, .Discarded => true
  | _, _ => false

/-- Modelled from the spec: the transition validator fails with
`InvalidStatusTransition` on any pair outside section 4.2's table. -/
def validate_status_transition (old_status new_status : BloodStatus) :
    Except ContractError Unit :=
  if allowedTransition old_status new_status then .ok () else
    .error .InvalidStatusTransition

/-- Storage of the inventory contract: Admin, BloodUnitCounter, the
BloodUnit map, StatusHistory, StatusHistoryCounter and the per-unit
change counters (the secondary indexes only receive appends from
`register_blood`, which no claim touches, and are omitted). -/
structure State where
  admin : Option Nat
  units : List (Nat × BloodUnit)
  counter : Nat
  history : List (Nat × List StatusChangeHistory)
  historyCounter : Nat
  changeCounts : List (Nat × Nat)
deriving DecidableEq, Repr

/-- `initialize` of the inventory contract: fails with
`AlreadyInitialized` when the Admin key is already present. -/
def initContract (st : State) (admin : Nat) : State × Except ContractError Unit :=
  if st.admin.isSome then (st, .error .AlreadyInitialized)
  else ({st with admin := some admin}, .ok ())

/-- `storage::record_status_change` of the inventory contract. -/
def record_status_change (st : State) (now uid : Nat)
    (from_status to_status : BloodStatus) (auth : Nat) (reason : Option String) :
    State :=
  let hid := st.historyCounter + 1
  let entry : StatusChangeHistory := ⟨hid, uid, from_status, to_status, auth, now, reason⟩
  let hs := (mapGet st.history uid).getD []
  let cnt := (mapGet st.changeCounts uid).getD 0
  {st with historyCounter := hid,
           history := mapSet st.history uid (hs ++ [entry]),
           changeCounts := mapSet st.changeCounts uid (cnt + 1)}

/-- `update_status` of the inventory contract.  The expiry check runs
before the terminal-state check and before the transition table, for every
target status.  (The source reads the admin through `get_admin`, which
panics when uninitialized; the host turns that trap into a failed, fully
rolled back invocation, embedded as the `NotInitialized` error path.) -/
def update_status (st : State) (now uid : Nat) (new_status : BloodStatus)
    (auth : Nat) (reason : Option String) : State × Except ContractError BloodUnit :=
  match st.admin with
  | none => (st, .error .NotInitialized)
  | some adm =>
    if auth ≠ adm then (st, .error .Unauthorized)
    else match mapGet st.units uid with
    | none => (st, .error .NotFound)
    | some u =>
      if u.is_expired now then (st, .error .BloodUnitExpired)
      else if u.status.is_terminal then (st, .error .InvalidStatusTransition)
      else match validate_status_transition u.status new_status with
      | .error e => (st, .error e)
      | .ok _ =>
        let u1 := {u with status := new_status}
        let st1 := {st with units := mapSet st.units uid u1}
        (record_status_change st1 now uid u.status new_status auth reason, .ok u1)

/-- `mark_delivered`. -/
def mark_delivered (st : State) (now uid : Nat) (auth : Nat)
    (delivery_location : String) : State × Except ContractError BloodUnit :=
  update_status st now uid .Delivered auth (some delivery_location)

/-- `mark_expired`. -/
def mark_expired (st : State) (now uid : Nat) (auth : Nat) :
    State × Except ContractError BloodUnit :=
  update_status st now uid .Expired auth (some ("Marked as expired"))

/-- Loop body of `batch_update_status`: each unit is checked and written
back one at a time, so on its raw semantics a failure partway leaves the
earlier units already updated (the host rolls the invocation back). -/
def batchUpdGo (now : Nat) (new_status : BloodStatus) (auth : Nat)
    (reason : Option String) :
    List Nat → State → Nat → State × Except ContractError Nat
  | [], st, cnt => (st, .ok cnt)
  | uid :: rest, st, cnt =>
    match mapGet st.units uid with
    | none => (st, .error .NotFound)
    | some u =>
      if u.is_expired now then (st, .error .BloodUnitExpired)
      else if u.status.is_terminal then (st, .error .InvalidStatusTransition)
      else match validate_status_transition u.status new_status with
      | .error e => (st, .error e)
      | .ok _ =>
        let st1 := {st with units := mapSet st.units uid {u with status := new_status}}
        let st2 := record_status_change st1 now uid u.status new_status auth reason
        batchUpdGo now new_status auth reason rest st2 (cnt + 1)

/-- `batch_update_status` of the inventory contract. -/
def batch_update_status (st : State) (now : Nat) (unit_ids : List Nat)
    (new_status : BloodStatus) (auth : Nat) (reason : Option String) :
    State × Except ContractError Nat :=
  match st.admin with
  | none => (st, .error .NotInitialized)
  | some adm =>
    if auth ≠ adm then (st, .error .Unauthorized)
    else batchUpdGo now new_status auth reason unit_ids st 0

end Inventory

namespace Requests

/-- Error enum of the requests contract (`error.rs`, first block of the
merge-conflicted file; only the variants reached by the embedded
operations are carried). -/
inductive ContractError
  | AlreadyInitialized | NotInitialized | Unauthorized
  | InvalidInput | InvalidTimestamp | InvalidQuantity
  | InvalidRequiredBy | InvalidDeliveryAddress
  | NotFound | RequestExpired | DuplicateRequest
  | NotAuthorizedHospital | RequestNotFound
  | InvalidStatusTransition | CannotCancelRequest
deriving DecidableEq, Repr

/-- Request status enumeration of the requests contract (`types.rs`, the
variant that `can_transition_to` at its cited lines is written against). -/
inductive RequestStatus
  | Pending | Approved | Fulfilled | InDelivery | Completed | Cancelled | Expired
deriving DecidableEq, Repr

/-- Urgency level of the requests contract. -/
inductive UrgencyLevel
  | Critical | Urgent | Normal
deriving DecidableEq, Repr

/-- `UrgencyLevel::priority_weight`. -/
def UrgencyLevel.priority_weight : UrgencyLevel → Nat
  | .Critical => 3
  | .Urgent => 2
  | .Normal => 1

/-- `RequestStatus::can_transition_to` (transition table of the requests
contract). -/
def can_transition_to (old_status new_status : RequestStatus) : Bool :=
  match old_status, new_status with
  | .Pending, .Approved => true
  | .Pending, .Cancelled => true
  | .Pending, .Expired => true
  | .Approved, .Fulfilled => true
  | .Approved, .Cancelled => true
  | .Approved, .Expired => true
  | .Fulfilled, .InDelivery => true
  | .Fulfilled, .Cancelled => true
  | .InDelivery, .Completed => true
  | .InDelivery, .Cancelled => true
  | _, _ => false

/-- `RequestStatus::can_cancel`. -/
def can_cancel : RequestStatus → Bool
  | .Pending => true
  | .Approved => true
  | .Fulfilled => true
  | .InDelivery => true
  | _ => false

/-- Blood request record of the requests contract. -/
structure BloodRequest where
  id : Nat
  hospital_id : Nat
  blood_type : BloodType
  quantity_ml : Nat
  urgency : UrgencyLevel
  status : RequestStatus
  created_at : Nat
  required_by : Nat
  fulfilled_at : Option Nat
  assigned_units : List Nat
  delivery_address : String
  metadata : List (String × String)
deriving DecidableEq, Repr

/-- Storage of the requests contract: Admin, the AuthorizedHospital key
set, RequestCounter, the BloodRequest map and the four secondary indexes. -/
structure State where
  admin : Option Nat
  authorized : List Nat
  counter : Nat
  requests : List (Nat × BloodRequest)
  hospitalIndex : List (Nat × List Nat)
  bloodTypeIndex : List (BloodType × List Nat)
  statusIndex : List (RequestStatus × List Nat)
  urgencyIndex : List (UrgencyLevel × List Nat)
deriving DecidableEq, Repr

/-- `storage::is_initialized`. -/
def is_initialized (st : State) : Bool := st.admin.isSome

/-- `storage::is_authorized_hospital` (the version at the cited lines
43-55): the admin address always passes, otherwise membership of the
AuthorizedHospital key set decides. -/
def is_authorized_hospital (st : State) (hosp : Nat) : Bool :=
  (match st.admin with
   | some adm => hosp = adm
   | none => false)
  || st.authorized.contains hosp

/-- `initialize` of the requests contract. -/
def initContract (st : State) (admin : Nat) : State × Except ContractError Unit :=
  if is_initialized st then (st, .error .AlreadyInitialized)
  else ({st with admin := some admin}, .ok ())

/-- `authorize_hospital`. -/
def authorize_hospital (st : State) (hosp : Nat) : State × Except ContractError Unit :=
  if !(is_initialized st) then (st, .error .NotInitialized)
  else if st.authorized.contains hosp then (st, .ok ())
  else ({st with authorized := st.authorized ++ [hosp]}, .ok ())

/-- `revoke_hospital`: removes the hospital's AuthorizedHospital key. -/
def revoke_hospital (st : State) (hosp : Nat) : State × Except ContractError Unit :=
  if !(is_initialized st) then (st, .error .NotInitialized)
  else ({st with authorized := st.authorized.filter (fun h => h ≠ hosp)}, .ok ())

/-- `validation::validate_request_creation` (the three-argument body the
contract calls; the merge-conflicted source declares the quantity bounds
both as 100-10000 and as 50-5000, and 100-10000 is used here — no settled
claim depends on the choice). -/
def validate_request_creation (now quantity_ml required_by : Nat) :
    Except ContractError Unit :=
  if quantity_ml < 100 ∨ 10000 < quantity_ml then .error .InvalidQuantity
  else if required_by ≤ now then .error .InvalidTimestamp
  else if now + 30 * 86400 < required_by then .error .InvalidTimestamp
  else .ok ()

/-- `validation::validate_delivery_address`. -/
def validate_delivery_address (addr : String) : Except ContractError Unit :=
  if addr.length = 0 then .error .InvalidDeliveryAddress else .ok ()

/-- `validation::validate_urgency_time_window` (weight 3 needs 1 hour,
weight 2 needs 4 hours, anything else 24 hours of lead time; the
subtraction saturates like the source's `saturating_sub`). -/
def validate_urgency_time_window (now required_by weight : Nat) :
    Except ContractError Unit :=
  let time_available := required_by - now
  let min_time := if weight = 3 then 3600 else if weight = 2 then 4 * 3600 else 24 * 3600
  if time_available < min_time then .error .InvalidRequiredBy else .ok ()

/-- `BloodRequest::validate` (first variant of the merge-conflicted
`types.rs`: quantity 100-10000, `required_by` after `created_at`,
`created_at` at most one hour ahead of the clock, `fulfilled_at` not
before `created_at`). -/
def requestValidate (req : BloodRequest) (now : Nat) : Except ContractError Unit :=
  if req.quantity_ml < 100 ∨ 10000 < req.quantity_ml then .error .InvalidQuantity
  else if req.required_by ≤ req.created_at then .error .InvalidTimestamp
  else if now + 3600 < req.created_at then .error .InvalidTimestamp
  else match req.fulfilled_at with
  | some f => if f < req.created_at then .error .InvalidTimestamp else .ok ()
  | none => .ok ()

/-- Append a request id to one secondary index entry. -/
def pushIndex {κ : Type} [DecidableEq κ] (idx : List (κ × List Nat)) (k : κ)
    (rid : Nat) : List (κ × List Nat) :=
  aSet idx k ((aGet idx k).getD [] ++ [rid])

/-- `create_request` of the requests contract (the constructed
`RequestMetadata` value is dropped by the source, which stores an empty
metadata map on the request). -/
def create_request (st : State) (now : Nat) (hospital_id : Nat)
    (blood_type : BloodType) (quantity_ml : Nat) (urgency : UrgencyLevel)
    (required_by : Nat) (delivery_address : String)
    (_patient_id : Nat) (_procedure _notes : String) :
    State × Except ContractError Nat :=
  if !(is_initialized st) then (st, .error .NotInitialized)
  else if !(is_authorized_hospital st hospital_id) then
    (st, .error .NotAuthorizedHospital)
  else match validate_request_creation now quantity_ml required_by with
  | .error e => (st, .error e)
  | .ok _ => match validate_delivery_address delivery_address with
  | .error e => (st, .error e)
  | .ok _ => match validate_urgency_time_window now required_by urgency.priority_weight with
  | .error e => (st, .error e)
  | .ok _ =>
    let rid := st.counter + 1
    let st1 := {st with counter := rid}
    let req : BloodRequest :=
      ⟨rid, hospital_id, blood_type, quantity_ml, urgency, .Pending, now,
       required_by, none, [], delivery_address, []⟩
    match requestValidate req now with
    | .error e => (st1, .error e)
    | .ok _ =>
      let st2 := {st1 with requests := mapSet st1.requests rid req}
      let st3 := {st2 with
        hospitalIndex := pushIndex st2.hospitalIndex hospital_id rid,
        bloodTypeIndex := pushIndex st2.bloodTypeIndex blood_type rid,
        statusIndex := pushIndex st2.statusIndex RequestStatus.Pending rid,
        urgencyIndex := pushIndex st2.urgencyIndex urgency rid}
      (st3, .ok rid)

/-- `update_request_status` of the requests contract (the admin is read via
`get_admin`, whose panic on an uninitialized contract is the host trap,
embedded as the `NotInitialized` error path). -/
def update_request_status (st : State) (now rid : Nat)
    (new_status : RequestStatus) : State × Except ContractError Unit :=
  match st.admin with
  | none => (st, .error .NotInitialized)
  | some _ =>
    match mapGet st.requests rid with
    | none => (st, .error .RequestNotFound)
    | some req =>
      if !(can_transition_to req.status new_status) then
        (st, .error .InvalidStatusTransition)
      else
        let fat := if new_status = RequestStatus.Fulfilled then some now
                   else req.fulfilled_at
        let req1 := {req with status := new_status, fulfilled_at := fat}
        ({st with requests := mapSet st.requests rid req1}, .ok ())

end Requests

/-! Concrete states used by the counterexamples and witnesses below. -/

/-- A Delivered (terminal) unit held by bank 1, allocated to hospital 2. -/
def uTerm : HealthChain.BloodUnit :=
  ⟨1, .OPositive, 450, 1000, "d1", "BANK", 1, 0, .Delivered, some 2, some 5, some 6, some 7⟩

/-- HealthChain state with bank 1, hospital 2 and the terminal unit `uTerm`. -/
def stTerm : HealthChain.State :=
  ⟨some 1, [(1, true)], [(2, true)], [(1, uTerm)], some 2, [], none, [], []⟩

/-- A Delivered (terminal) inventory unit. -/
def iuTerm : Inventory.BloodUnit := ⟨1, .OPositive, 450, 7, none, 0, 1000, .Delivered, []⟩

/-- Inventory state with admin 7 holding the terminal unit `iuTerm`. -/
def istTerm : Inventory.State := ⟨some 7, [(1, iuTerm)], 1, [], 0, []⟩

/-- An Available inventory unit that expires at time 100. -/
def iuAvail : Inventory.BloodUnit := ⟨1, .OPositive, 450, 7, none, 0, 100, .Available, []⟩

/-- Inventory state with admin 7 holding `iuAvail`. -/
def istExp : Inventory.State := ⟨some 7, [(1, iuAvail)], 1, [], 0, []⟩

/-- A Reserved HealthChain unit, allocated to hospital 2, expiring at 100. -/
def uResExp : HealthChain.BloodUnit :=
  ⟨1, .OPositive, 450, 100, "d1", "BANK", 1, 0, .Reserved, some 2, some 5, none, none⟩

/-- HealthChain state with bank 1, hospital 2 and the unit `uResExp`. -/
def stResExp : HealthChain.State :=
  ⟨some 1, [(1, true)], [(2, true)], [(1, uResExp)], some 2, [], none, [], []⟩

/-- An Expired unit (expiration 10) whose recipient is hospital 2. -/
def u3 : HealthChain.BloodUnit :=
  ⟨1, .OPositive, 450, 10, "d1", "BANK", 1, 0, .Expired, some 2, some 5, none, none⟩

/-- An Approved request of hospital 2. -/
def req3 : HealthChain.BloodRequest :=
  ⟨1, 2, .OPositive, 450, .High, 1000, "addr", 0, .Approved, none, []⟩

/-- HealthChain state where address 9 (the contract address) is a bank,
hospital 2 is registered, unit 1 is `u3` and request 1 is `req3`. -/
def st3 : HealthChain.State :=
  ⟨some 1, [(9, true)], [(2, true)], [(1, u3)], some 2, [(1, req3)], some 2, [], []⟩

/-- An Approved request, used against `update_request_status`. -/
def req4 : HealthChain.BloodRequest :=
  ⟨1, 2, .OPositive, 500, .High, 1000, "addr", 0, .Approved, none, []⟩

/-- HealthChain state holding only the Approved request `req4`. -/
def st4 : HealthChain.State := ⟨some 1, [], [], [], none, [(1, req4)], some 2, [], []⟩

/-- HealthChain state with hospital 2 registered and no requests yet. -/
def st5 : HealthChain.State := ⟨some 1, [], [(2, true)], [], none, [], none, [], []⟩

/-- `st5` after hospital 2 creates a request (id 1). -/
def st5a : HealthChain.State :=
  (HealthChain.create_request st5 10 2 .OPositive 100 .High 1000 "addr").1

/-- `st5a` after request 1 is cancelled. -/
def st5b : HealthChain.State := (HealthChain.cancel_request st5a 9 1 "stop").1

/-- An Available, unexpired unit owned by bank 1. -/
def u6 : HealthChain.BloodUnit :=
  ⟨1, .OPositive, 450, 1000, "d1", "BANK", 1, 0, .Available, none, none, none, none⟩

/-- HealthChain state with bank 1, hospital 2 and the single unit `u6`. -/
def st6 : HealthChain.State :=
  ⟨some 1, [(1, true)], [(2, true)], [(1, u6)], some 2, [], none, [], []⟩

/-- A unit that is already Reserved (invalid for allocation). -/
def u6b : HealthChain.BloodUnit :=
  ⟨2, .OPositive, 400, 1000, "d2", "BANK", 1, 0, .Reserved, some 2, some 3, none, none⟩

/-- HealthChain state holding the valid unit `u6` and the already-reserved
unit `u6b`. -/
def st6b : HealthChain.State :=
  ⟨some 1, [(1, true)], [(2, true)], [(1, u6), (2, u6b)], some 3, [], none, [], []⟩

/-- Empty (uninitialized) HealthChain state. -/
def st7 : HealthChain.State := ⟨none, [], [], [], none, [], none, [], []⟩

/-- Uninitialized inventory state. -/
def istEmpty : Inventory.State := ⟨none, [], 0, [], 0, []⟩

/-- Inventory state initialized with admin 7. -/
def istInit : Inventory.State := ⟨some 7, [], 0, [], 0, []⟩

/-- Uninitialized requests state. -/
def rstEmpty : Requests.State := ⟨none, [], 0, [], [], [], [], []⟩

/-- Requests state initialized with admin 5 and no authorized hospitals. -/
def rstInit : Requests.State := ⟨some 5, [], 0, [], [], [], [], []⟩

/-- Two Available O+ units (quantities 100 and 50). -/
def u9a : HealthChain.BloodUnit :=
  ⟨1, .OPositive, 100, 1000, "d1", "BANK", 1, 0, .Available, none, none, none, none⟩

/-- Second O+ unit for the availability example. -/
def u9b : HealthChain.BloodUnit :=
  ⟨2, .OPositive, 50, 500, "d2", "BANK", 1, 0, .Available, none, none, none, none⟩

/-- HealthChain state holding `u9a` and `u9b`. -/
def st9 : HealthChain.State :=
  ⟨some 1, [], [], [(1, u9a), (2, u9b)], some 3, [], none, [], []⟩

/-! ## Basic lemmas about the storage maps -/

theorem mapGet_mapSet_self {α : Type} (m : List (Nat × α)) (k : Nat) (v : α) :
    mapGet (mapSet m k v) k = some v := by
  induction m with
  | nil => simp [mapGet, mapSet]
  | cons p t ih =>
    obtain ⟨k1, v1⟩ := p
    by_cases h1 : k < k1
    · simp [mapSet, h1, mapGet]
    · by_cases h2 : k = k1
      · simp [mapSet, h1, h2, mapGet]
      · simp [mapSet, h1, h2, mapGet, ih]

theorem mapGet_mapSet_ne {α : Type} (m : List (Nat × α)) (k k2 : Nat) (v : α)
    (h : k2 ≠ k) : mapGet (mapSet m k v) k2 = mapGet m k2 := by
  induction m with
  | nil => simp [mapGet, mapSet, h]
  | cons p t ih =>
    obtain ⟨k1, v1⟩ := p
    by_cases h1 : k < k1
    · simp [mapSet, h1, mapGet, h]
    · by_cases h2 : k = k1
      · subst h2; simp [mapSet, h1, mapGet, h]
      · by_cases h3 : k2 = k1
        · simp [mapSet, h1, h2, mapGet, h3]
        · simp [mapSet, h1, h2, mapGet, h3, ih]

theorem aGet_aSet_self {κ α : Type} [DecidableEq κ] (m : List (κ × α)) (k : κ) (v : α) :
    aGet (aSet m k v) k = some v := by
  induction m with
  | nil => simp [aGet, aSet]
  | cons p t ih =>
    obtain ⟨k1, v1⟩ := p
    by_cases h2 : k = k1
    · simp [aSet, h2, aGet]
    · simp [aSet, h2, aGet, ih]

/-! ## C4 -/

/-- C4: the claim asserts `update_request_status` permits Approved to
transition to Fulfilled.  It does not: on an Approved request, requesting
Fulfilled fails with `InvalidTransition` and leaves the state unchanged. -/
theorem C4_counterexample :
    mapGet st4.requests 1 = some req4 ∧ req4.status = .Approved ∧
    HealthChain.update_request_status st4 1 .Fulfilled =
      (st4, .error .InvalidTransition) :=
  ⟨rfl, rfl, rfl⟩

/-- C4 (amended): in the HealthChain contract `update_request_status`
permits exactly Pending to Approved/Rejected/Cancelled, Approved to
InProgress/Cancelled (not Fulfilled), and InProgress to
Fulfilled/Cancelled; every other attempt fails with `InvalidTransition`
and leaves the request unchanged, and a permitted attempt installs the new
status.  In the lifebank requests contract `can_transition_to` permits
exactly Pending to Approved/Cancelled/Expired, Approved to
Fulfilled/Cancelled/Expired, Fulfilled to InDelivery/Cancelled and
InDelivery to Completed/Cancelled. -/
theorem C4_amended :
    (∀ o n : HealthChain.RequestStatus,
      HealthChain.is_valid_status_transition o n = true ↔
        ((o = .Pending ∧ (n = .Approved ∨ n = .Rejected ∨ n = .Cancelled)) ∨
         (o = .Approved ∧ (n = .InProgress ∨ n = .Cancelled)) ∨
         (o = .InProgress ∧ (n = .Fulfilled ∨ n = .Cancelled))))
    ∧ (∀ (st : HealthChain.State) (rid : Nat) (req : HealthChain.BloodRequest)
         (n : HealthChain.RequestStatus),
        mapGet st.requests rid = some req →
        HealthChain.is_valid_status_transition req.status n = false →
        HealthChain.update_request_status st rid n = (st, .error .InvalidTransition))
    ∧ (∀ (st : HealthChain.State) (rid : Nat) (req : HealthChain.BloodRequest)
         (n : HealthChain.RequestStatus),
        mapGet st.requests rid = some req →
        HealthChain.is_valid_status_transition req.status n = true →
        HealthChain.update_request_status st rid n =
          ({st with requests := mapSet st.requests rid {req with status := n}}, .ok ()))
    ∧ (∀ o n : Requests.RequestStatus,
        Requests.can_transition_to o n = true ↔
          ((o = .Pending ∧ (n = .Approved ∨ n = .Cancelled ∨ n = .Expired)) ∨
           (o = .Approved ∧ (n = .Fulfilled ∨ n = .Cancelled ∨ n = .Expired)) ∨
           (o = .Fulfilled ∧ (n = .InDelivery ∨ n = .Cancelled)) ∨
           (o = .InDelivery ∧ (n = .Completed ∨ n = .Cancelled)))) := by
  refine ⟨?_, ?_, ?_, ?_⟩
  · intro o n
    cases o <;> cases n <;> simp [HealthChain.is_valid_status_transition]
  · intro st rid req n hget hval
    simp [HealthChain.update_request_status, hget, hval]
  · intro st rid req n hget hval
    simp [HealthChain.update_request_status, hget, hval]
  · intro o n
    cases o <;> cases n <;> simp [Requests.can_transition_to]

/-- C4 witness: the amended theorem applied to the Approved request
`req4` of `st4`, with both an invalid target (Fulfilled) and a valid
target (InProgress). -/
theorem C4_amended_witness :
    HealthChain.update_request_status st4 1 .Fulfilled =
      (st4, .error .InvalidTransition) ∧
    HealthChain.update_request_status st4 1 .InProgress =
      ({st4 with requests := mapSet st4.requests 1 {req4 with status := .InProgress}},
       .ok ()) :=
  ⟨C4_amended.2.1 st4 1 req4 .Fulfilled rfl rfl,
   C4_amended.2.2.1 st4 1 req4 .InProgress rfl rfl⟩

/-! ## C7 -/

/-- C7: the claim asserts a second `initialize` fails with
`AlreadyInitialized` and leaves the admin unchanged.  In the HealthChain
contract the second call succeeds (returning the symbol "init") and
overwrites the stored admin. -/
theorem C7_counterexample :
    (HealthChain.initContract st7 1).1.admin = some 1 ∧
    HealthChain.initContract (HealthChain.initContract st7 1).1 2 =
      ({st7 with admin := some 2}, .ok "init") :=
  ⟨rfl, rfl⟩

/-- C7 (amended): the lifebank inventory and requests contracts enforce
initialize-once semantics — a second `initialize` fails with
`AlreadyInitialized` and leaves the stored admin unchanged, while a first
call on an uninitialized state succeeds and stores the admin.  The
HealthChain contract's `initialize` performs no such check: every call
succeeds and overwrites the stored admin. -/
theorem C7_amended :
    (∀ (st : Inventory.State) (A B : Nat), st.admin = some A →
      Inventory.initContract st B = (st, .error .AlreadyInitialized))
    ∧ (∀ (st : Inventory.State) (B : Nat), st.admin = none →
        Inventory.initContract st B = ({st with admin := some B}, .ok ()))
    ∧ (∀ (st : Requests.State) (A B : Nat), st.admin = some A →
        Requests.initContract st B = (st, .error .AlreadyInitialized))
    ∧ (∀ (st : Requests.State) (B : Nat), st.admin = none →
        Requests.initContract st B = ({st with admin := some B}, .ok ()))
    ∧ (∀ (st : HealthChain.State) (B : Nat),
        HealthChain.initContract st B = ({st with admin := some B}, .ok "init")) := by
  refine ⟨?_, ?_, ?_, ?_, ?_⟩
  · intro st A B h; simp [Inventory.initContract, h]
  · intro st B h; simp [Inventory.initContract, h]
  · intro st A B h; simp [Requests.initContract, Requests.is_initialized, h]
  · intro st B h; simp [Requests.initContract, Requests.is_initialized, h]
  · intro st B; simp [HealthChain.initContract]

/-- C7 witness: the amended theorem applied to the initialized states
`istInit` (admin 7) and `rstInit` (admin 5) and to the empty HealthChain
state. -/
theorem C7_amended_witness :
    Inventory.initContract istInit 9 = (istInit, .error .AlreadyInitialized) ∧
    Requests.initContract rstInit 9 = (rstInit, .error .AlreadyInitialized) ∧
    HealthChain.initContract st7 3 = ({st7 with admin := some 3}, .ok "init") :=
  ⟨C7_amended.1 istInit 7 9 rfl,
   C7_amended.2.2.1 rstInit 5 9 rfl,
   C7_amended.2.2.2.2 st7 3⟩

/-! ## C10 -/

theorem validate_request_creation_ne_auth (now q rb : Nat) :
    Requests.validate_request_creation now q rb ≠
      Except.error Requests.ContractError.NotAuthorizedHospital := by
  unfold Requests.validate_request_creation
  intro h
  repeat' split at h
  all_goals simp [ite_eq_iff] at h

theorem validate_delivery_address_ne_auth (addr : String) :
    Requests.validate_delivery_address addr ≠
      Except.error Requests.ContractError.NotAuthorizedHospital := by
  unfold Requests.validate_delivery_address
  intro h
  repeat' split at h
  all_goals simp [ite_eq_iff] at h

theorem validate_urgency_time_window_ne_auth (now rb w : Nat) :
    Requests.validate_urgency_time_window now rb w ≠
      Except.error Requests.ContractError.NotAuthorizedHospital := by
  unfold Requests.validate_urgency_time_window
  intro h
  repeat' split at h
  all_goals simp [ite_eq_iff] at h

theorem requestValidate_ne_auth (req : Requests.BloodRequest) (now : Nat) :
    Requests.requestValidate req now ≠
      Except.error Requests.ContractError.NotAuthorizedHospital := by
  unfold Requests.requestValidate
  intro h
  repeat' split at h
  all_goals simp [ite_eq_iff] at h

/-- C10: in the requests contract the admin address always passes the
hospital-authorization check: on any state whose stored admin is `A`,
`is_authorized_hospital A` is true — also after `revoke_hospital A` — and
`create_request` called with hospital id `A` never fails with
`NotAuthorizedHospital`. -/
theorem C10_admin_authorized (st : Requests.State) (A : Nat)
    (hA : st.admin = some A) :
    Requests.is_authorized_hospital st A = true
    ∧ Requests.is_authorized_hospital (Requests.revoke_hospital st A).1 A = true
    ∧ (∀ (now : Nat) (bt : BloodType) (q : Nat) (urg : Requests.UrgencyLevel)
         (rb : Nat) (addr : String) (pid : Nat) (proc notes : String),
        (Requests.create_request st now A bt q urg rb addr pid proc notes).2 ≠
          Except.error Requests.ContractError.NotAuthorizedHospital) := by
  have hinit : Requests.is_initialized st = true := by
    simp [Requests.is_initialized, hA]
  have hauth : Requests.is_authorized_hospital st A = true := by
    simp [Requests.is_authorized_hospital, hA]
  refine ⟨hauth, ?_, ?_⟩
  · simp [Requests.revoke_hospital, hinit, Requests.is_authorized_hospital, hA]
  · intro now bt q urg rb addr pid proc notes
    simp only [Requests.create_request, hinit, hauth, Bool.not_true,
      Bool.false_eq_true, if_false]
    cases h1 : Requests.validate_request_creation now q rb with
    | error e1 =>
      simp only [h1]
      intro hc
      rw [show e1 = Requests.ContractError.NotAuthorizedHospital by injection hc] at h1
      exact validate_request_creation_ne_auth now q rb h1
    | ok u1 =>
      simp only [h1]
      cases h2 : Requests.validate_delivery_address addr with
      | error e2 =>
        simp only [h2]
        intro hc
        rw [show e2 = Requests.ContractError.NotAuthorizedHospital by injection hc] at h2
        exact validate_delivery_address_ne_auth addr h2
      | ok u2 =>
        simp only [h2]
        cases h3 : Requests.validate_urgency_time_window now rb
            urg.priority_weight with
        | error e3 =>
          simp only [h3]
          intro hc
          rw [show e3 = Requests.ContractError.NotAuthorizedHospital by injection hc] at h3
          exact validate_urgency_time_window_ne_auth now rb urg.priority_weight h3
        | ok u3 =>
          simp only [h3]
          cases h4 : Requests.requestValidate
              ⟨st.counter + 1, A, bt, q, urg, .Pending, now, rb, none, [], addr, []⟩ now with
          | error e4 =>
            simp only [h4]
            intro hc
            rw [show e4 = Requests.ContractError.NotAuthorizedHospital by injection hc] at h4
            exact requestValidate_ne_auth _ now h4
          | ok u4 =>
            simp only [h4]
            simp

/-- C10 witness: the theorem applied to the initialized state `rstInit`
(admin 5, no hospital ever authorized). -/
theorem C10_admin_authorized_witness :
    Requests.is_authorized_hospital rstInit 5 = true ∧
    (Requests.create_request rstInit 100 5 .OPositive 40 .Normal 200 "a" 1 "p" "n").2 ≠
      Except.error Requests.ContractError.NotAuthorizedHospital :=
  ⟨(C10_admin_authorized rstInit 5 rfl).1,
   (C10_admin_authorized rstInit 5 rfl).2.2 100 .OPositive 40 .Normal 200 "a" 1 "p" "n"⟩

/-! ## C5 -/

/-- C5: the claim asserts an identical tuple is accepted again once the
first request is no longer active.  It is not: after hospital 2's request
is created and then cancelled (its status is Cancelled), the identical
tuple still fails with `DuplicateRequest`, because no operation ever
removes the duplicate-detection key. -/
theorem C5_counterexample :
    (HealthChain.create_request st5 10 2 .OPositive 100 .High 1000 "addr").2 = .ok 1 ∧
    (HealthChain.cancel_request st5a 9 1 "stop").2 = .ok () ∧
    (mapGet st5b.requests 1).map (fun r => r.status) = some .Cancelled ∧
    HealthChain.create_request st5b 10 2 .OPositive 100 .High 1000 "addr" =
      (st5b, .error .DuplicateRequest) :=
  ⟨rfl, rfl, rfl, rfl⟩

/-- C5 (amended): while a REQ_KEYS entry for the tuple exists,
`create_request` with the identical tuple fails with `DuplicateRequest`;
a successful `create_request` installs that entry; and `cancel_request`
never touches REQ_KEYS, so once created — active, cancelled or fulfilled —
an identical tuple is never accepted again. -/
theorem C5_amended :
    (∀ (st : HealthChain.State) (now h : Nat) (bt : BloodType) (q : Nat)
       (urg : HealthChain.UrgencyLevel) (rb : Nat) (addr : String) (rid : Nat),
      (aGet st.hospitals h).getD false = true →
      ¬(q < HealthChain.MIN_REQUEST_ML ∨ HealthChain.MAX_REQUEST_ML < q) →
      addr.length ≠ 0 →
      now < rb →
      aGet st.requestKeys ⟨h, bt, q, urg, rb, addr⟩ = some rid →
      HealthChain.create_request st now h bt q urg rb addr =
        (st, .error .DuplicateRequest))
    ∧ (∀ (st : HealthChain.State) (c rid : Nat) (reason : String),
        ((HealthChain.cancel_request st c rid reason).1).requestKeys = st.requestKeys)
    ∧ (∀ (st : HealthChain.State) (now h : Nat) (bt : BloodType) (q : Nat)
         (urg : HealthChain.UrgencyLevel) (rb : Nat) (addr : String),
        (aGet st.hospitals h).getD false = true →
        ¬(q < HealthChain.MIN_REQUEST_ML ∨ HealthChain.MAX_REQUEST_ML < q) →
        addr.length ≠ 0 →
        now < rb →
        aGet st.requestKeys ⟨h, bt, q, urg, rb, addr⟩ = none →
        (HealthChain.create_request st now h bt q urg rb addr).2 =
          .ok (st.nextRequestId.getD 1) ∧
        aGet ((HealthChain.create_request st now h bt q urg rb addr).1).requestKeys
          ⟨h, bt, q, urg, rb, addr⟩ = some (st.nextRequestId.getD 1)) := by
  refine ⟨?_, ?_, ?_⟩
  · intro st now h bt q urg rb addr rid h1 h2 h3 h4 h5
    have h4a : ¬(rb ≤ now) := by omega
    simp [HealthChain.create_request, h1, h2, h3, h4a, h5]
  · intro st c rid reason
    unfold HealthChain.cancel_request
    repeat' split
    all_goals simp
  · intro st now h bt q urg rb addr h1 h2 h3 h4 h5
    have h4a : ¬(rb ≤ now) := by omega
    constructor
    · simp [HealthChain.create_request, h1, h2, h3, h4a, h5]
    · simp [HealthChain.create_request, h1, h2, h3, h4a, h5, aGet_aSet_self]

/-- C5 witness: the amended theorem applied to the post-cancellation state
`st5b` (duplicate still rejected) and to the fresh state `st5` (tuple
accepted and key installed). -/
theorem C5_amended_witness :
    HealthChain.create_request st5b 10 2 .OPositive 100 .High 1000 "addr" =
      (st5b, .error .DuplicateRequest) ∧
    ((HealthChain.cancel_request st5a 9 1 "stop").1).requestKeys =
      st5a.requestKeys ∧
    (HealthChain.create_request st5 10 2 .OPositive 100 .High 1000 "addr").2 =
      .ok (st5.nextRequestId.getD 1) :=
  ⟨C5_amended.1 st5b 10 2 .OPositive 100 .High 1000 "addr" 1 rfl (by decide)
      (by decide) (by decide) rfl,
   C5_amended.2.1 st5a 9 1 "stop",
   (C5_amended.2.2 st5 10 2 .OPositive 100 .High 1000 "addr" rfl (by decide)
      (by decide) (by decide) rfl).1⟩

/-! ## C2 -/

/-- C2: the claim asserts that when the target status is Expired or
Discarded the expiry check does not block the operation.  In the inventory
contract it does: on a unit whose expiration (100) has passed (now = 150),
`update_status` to Expired — and to Discarded — fails with
`BloodUnitExpired` before any other check. -/
theorem C2_counterexample :
    mapGet istExp.units 1 = some iuAvail ∧
    iuAvail.expiration_timestamp ≤ 150 ∧
    Inventory.update_status istExp 150 1 .Expired 7 none =
      (istExp, .error .BloodUnitExpired) ∧
    Inventory.update_status istExp 150 1 .Discarded 7 none =
      (istExp, .error .BloodUnitExpired) :=
  ⟨rfl, by decide, rfl, rfl⟩

/-- C2 (amended): in the inventory contract the expiry check runs first and
blocks every requested transition on an expired unit — including to
Expired and Discarded (so `mark_expired` also fails) — with
`BloodUnitExpired`.  In the HealthChain contract, `allocate_blood` and
`initiate_transfer` fail with `UnitExpired` on an expired unit, and
`confirm_delivery` of an expired in-transit unit fails with `UnitExpired`;
`cancel_allocation` and `withdraw_blood` perform no expiry check at all and
succeed on an expired unit. -/
theorem C2_amended
    (ist : Inventory.State) (inow iuid : Nat) (iu : Inventory.BloodUnit)
    (adm : Nat)
    (hadm : ist.admin = some adm)
    (hiu : mapGet ist.units iuid = some iu)
    (hiexp : iu.expiration_timestamp ≤ inow)
    (st : HealthChain.State) (now uid : Nat) (u : HealthChain.BloodUnit)
    (hu : mapGet st.units uid = some u)
    (hexp : u.expiration_date ≤ now) :
    (∀ (ns : BloodStatus) (r : Option String),
      Inventory.update_status ist inow iuid ns adm r =
        (ist, .error .BloodUnitExpired))
    ∧ Inventory.mark_expired ist inow iuid adm = (ist, .error .BloodUnitExpired)
    ∧ (∀ b h, HealthChain.is_blood_bank st b = true →
        HealthChain.is_hospital st h = true →
        HealthChain.allocate_blood st now b uid h = (st, .error .UnitExpired))
    ∧ (∀ b, HealthChain.is_blood_bank st b = true →
        HealthChain.initiate_transfer st now b uid = (st, .error .UnitExpired))
    ∧ (∀ h, HealthChain.is_hospital st h = true →
        u.recipient_hospital = some h → u.status = .InTransit →
        (HealthChain.confirm_delivery st now h uid).2 = .error .UnitExpired)
    ∧ (∀ b, HealthChain.is_blood_bank st b = true → u.status = .Reserved →
        (HealthChain.cancel_allocation st now b uid).2 = .ok ())
    ∧ (∀ c r, HealthChain.is_blood_bank st c = true →
        (HealthChain.withdraw_blood st now c uid r).2 = .ok ()) := by
  refine ⟨?_, ?_, ?_, ?_, ?_, ?_, ?_⟩
  · intro ns r
    simp [Inventory.update_status, hadm, hiu, Inventory.BloodUnit.is_expired, hiexp]
  · simp [Inventory.mark_expired, Inventory.update_status, hadm, hiu,
      Inventory.BloodUnit.is_expired, hiexp]
  · intro b h hb hh
    simp [HealthChain.allocate_blood, hb, hh, hu, hexp]
  · intro b hb
    simp [HealthChain.initiate_transfer, hb, hu, hexp]
  · intro h hh hrec hst
    simp [HealthChain.confirm_delivery, hh, hu, hrec, hst, hexp]
  · intro b hb hst
    simp [HealthChain.cancel_allocation, hb, hu, hst]
  · intro c r hc
    simp [HealthChain.withdraw_blood, hc, hu]

/-- C2 witness: the theorem applied to the expired inventory unit of
`istExp` (now = 150) and the expired Reserved HealthChain unit of
`stResExp` (now = 150). -/
theorem C2_amended_witness :
    Inventory.update_status istExp 150 1 .Reserved 7 none =
      (istExp, .error .BloodUnitExpired) ∧
    Inventory.mark_expired istExp 150 1 7 = (istExp, .error .BloodUnitExpired) ∧
    HealthChain.initiate_transfer stResExp 150 1 1 = (stResExp, .error .UnitExpired) ∧
    (HealthChain.cancel_allocation stResExp 150 1 1).2 = .ok () ∧
    (HealthChain.withdraw_blood stResExp 150 1 1 .Contaminated).2 = .ok () :=
  ⟨(C2_amended istExp 150 1 iuAvail 7 rfl rfl (by decide) stResExp 150 1 uResExp
      rfl (by decide)).1 .Reserved none,
   (C2_amended istExp 150 1 iuAvail 7 rfl rfl (by decide) stResExp 150 1 uResExp
      rfl (by decide)).2.1,
   (C2_amended istExp 150 1 iuAvail 7 rfl rfl (by decide) stResExp 150 1 uResExp
      rfl (by decide)).2.2.2.1 1 rfl,
   (C2_amended istExp 150 1 iuAvail 7 rfl rfl (by decide) stResExp 150 1 uResExp
      rfl (by decide)).2.2.2.2.2.1 1 rfl rfl,
   (C2_amended istExp 150 1 iuAvail 7 rfl rfl (by decide) stResExp 150 1 uResExp
      rfl (by decide)).2.2.2.2.2.2 1 .Contaminated rfl⟩

/-! ## C1 -/

theorem hostCall_of_isErr {σ ε α : Type} (f : σ → σ × Except ε α) (st : σ)
    (h : isErr (f st).2 = true) : ∃ e, hostCall f st = (st, Except.error e) := by
  unfold hostCall
  rcases hf : f st with ⟨st1, r⟩
  cases r with
  | error e => exact ⟨e, by simp⟩
  | ok a => rw [hf] at h; simp [isErr] at h

theorem record_units (st : HealthChain.State) (now uid : Nat)
    (o n : BloodStatus) (actor : Nat) :
    (HealthChain.record_status_change st now uid o n actor).units = st.units := by
  simp [HealthChain.record_status_change]

theorem batchAllocGo_err_of_terminal (now bank hosp : Nat) :
    ∀ (ids : List Nat) (st : HealthChain.State)
      (units : List (Nat × HealthChain.BloodUnit)) (acc : List Nat)
      (uid : Nat) (u : HealthChain.BloodUnit),
      uid ∈ ids → mapGet units uid = some u → u.status.is_terminal = true →
      isErr (HealthChain.batchAllocGo now bank hosp ids st units acc).2 = true := by
  intro ids
  induction ids with
  | nil => intro st units acc uid u hmem _ _; simp at hmem
  | cons id0 rest ih =>
    intro st units acc uid u hmem hget hterm
    cases h0 : mapGet units id0 with
    | none => simp [HealthChain.batchAllocGo, h0, isErr]
    | some u0 =>
      by_cases hexp : u0.expiration_date ≤ now
      · simp [HealthChain.batchAllocGo, h0, hexp, isErr]
      · by_cases hav : u0.status = BloodStatus.Available
        · have hne : uid ≠ id0 := by
            intro he; subst he
            rw [hget] at h0
            injection h0 with huv
            rw [huv, hav] at hterm
            simp [BloodStatus.is_terminal] at hterm
          have hmem2 : uid ∈ rest := by
            rcases List.mem_cons.mp hmem with h | h
            · exact absurd h hne
            · exact h
          simp only [HealthChain.batchAllocGo, h0]
          rw [if_neg hexp, if_neg (show ¬(u0.status ≠ BloodStatus.Available) by simp [hav])]
          exact ih _ _ _ uid u hmem2
            (by rw [mapGet_mapSet_ne _ _ _ _ hne]; exact hget) hterm
        · simp [HealthChain.batchAllocGo, h0, hexp, hav, isErr]

theorem irecord_units (st : Inventory.State) (now uid : Nat)
    (o n : BloodStatus) (auth : Nat) (r : Option String) :
    (Inventory.record_status_change st now uid o n auth r).units = st.units := by
  simp [Inventory.record_status_change]

theorem batchUpdGo_err_of_terminal (now : Nat) (ns : BloodStatus) (auth : Nat)
    (r : Option String) :
    ∀ (ids : List Nat) (st : Inventory.State) (cnt : Nat)
      (uid : Nat) (u : Inventory.BloodUnit),
      uid ∈ ids → mapGet st.units uid = some u → u.status.is_terminal = true →
      isErr (Inventory.batchUpdGo now ns auth r ids st cnt).2 = true := by
  intro ids
  induction ids with
  | nil => intro st cnt uid u hmem _ _; simp at hmem
  | cons id0 rest ih =>
    intro st cnt uid u hmem hget hterm
    cases h0 : mapGet st.units id0 with
    | none => simp [Inventory.batchUpdGo, h0, isErr]
    | some u0 =>
      by_cases hexp : u0.is_expired now
      · simp [Inventory.batchUpdGo, h0, hexp, isErr]
      · by_cases hterm0 : u0.status.is_terminal
        · simp [Inventory.batchUpdGo, h0, hexp, hterm0, isErr]
        · have hne : uid ≠ id0 := by
            intro he; subst he
            rw [hget] at h0
            injection h0 with huv
            rw [huv] at hterm
            rw [hterm] at hterm0
            exact hterm0 rfl
          have hmem2 : uid ∈ rest := by
            rcases List.mem_cons.mp hmem with h | h
            · exact absurd h hne
            · exact h
          cases hv : Inventory.validate_status_transition u0.status ns with
          | error e => simp [Inventory.batchUpdGo, h0, hexp, hterm0, hv, isErr]
          | ok v =>
            simp only [Inventory.batchUpdGo, h0]
            rw [if_neg (show ¬(u0.is_expired now = true) from hexp),
              if_neg (show ¬(u0.status.is_terminal = true) from hterm0), hv]
            apply ih
            · exact hmem2
            · rw [irecord_units]
              show mapGet (mapSet st.units id0 _) uid = some u
              rw [mapGet_mapSet_ne _ _ _ _ hne]; exact hget
            · exact hterm

/-- C1: the claim asserts every status-changing operation fails on a unit
in a terminal status.  `withdraw_blood` does not: called by the registered
bank on the Delivered (terminal) unit of `stTerm` it succeeds and moves
the unit's status to Discarded. -/
theorem C1_counterexample :
    mapGet stTerm.units 1 = some uTerm ∧
    uTerm.status = .Delivered ∧
    (HealthChain.withdraw_blood stTerm 50 1 1 .Used).2 = .ok () ∧
    (mapGet (HealthChain.withdraw_blood stTerm 50 1 1 .Used).1.units 1).map
      (fun v => v.status) = some .Discarded :=
  ⟨rfl, rfl, rfl, rfl⟩

/-- C1 (amended): on a unit whose status is terminal (Delivered, Expired
or Discarded), `allocate_blood`, `cancel_allocation`, `initiate_transfer`,
`confirm_delivery` and `batch_allocate_blood` in the HealthChain contract,
and `update_status`, `mark_delivered`, `mark_expired` and
`batch_update_status` in the inventory contract, all fail with an error
and leave storage unchanged; `withdraw_blood`, however, performs no status
check: called by any authorized bank or hospital it succeeds and sets the
unit's status to Discarded. -/
theorem C1_amended
    (st : HealthChain.State) (now uid : Nat) (u : HealthChain.BloodUnit)
    (hu : mapGet st.units uid = some u) (hterm : u.status.is_terminal = true)
    (ist : Inventory.State) (inow iuid : Nat) (iu : Inventory.BloodUnit)
    (hiu : mapGet ist.units iuid = some iu) (hiterm : iu.status.is_terminal = true) :
    (∀ b h, ∃ e, HealthChain.allocate_blood st now b uid h = (st, .error e))
    ∧ (∀ b, ∃ e, HealthChain.cancel_allocation st now b uid = (st, .error e))
    ∧ (∀ b, ∃ e, HealthChain.initiate_transfer st now b uid = (st, .error e))
    ∧ (∀ h, ∃ e, HealthChain.confirm_delivery st now h uid = (st, .error e))
    ∧ (∀ b h ids, uid ∈ ids → ∃ e,
        hostCall (fun s => HealthChain.batch_allocate_blood s now b ids h) st =
          (st, .error e))
    ∧ (∀ c r, (HealthChain.is_blood_bank st c || HealthChain.is_hospital st c) = true →
        (HealthChain.withdraw_blood st now c uid r).2 = .ok () ∧
        mapGet (HealthChain.withdraw_blood st now c uid r).1.units uid =
          some {u with status := .Discarded})
    ∧ (∀ ns auth r, ∃ e,
        Inventory.update_status ist inow iuid ns auth r = (ist, .error e))
    ∧ (∀ auth loc, ∃ e,
        Inventory.mark_delivered ist inow iuid auth loc = (ist, .error e))
    ∧ (∀ auth, ∃ e, Inventory.mark_expired ist inow iuid auth = (ist, .error e))
    ∧ (∀ ns auth r ids, iuid ∈ ids → ∃ e,
        hostCall (fun s => Inventory.batch_update_status s inow ids ns auth r) ist =
          (ist, .error e)) := by
  have hnav : ¬(u.status = BloodStatus.Available) := by
    intro hc; rw [hc] at hterm; simp [BloodStatus.is_terminal] at hterm
  have hnres : ¬(u.status = BloodStatus.Reserved) := by
    intro hc; rw [hc] at hterm; simp [BloodStatus.is_terminal] at hterm
  have hnit : ¬(u.status = BloodStatus.InTransit) := by
    intro hc; rw [hc] at hterm; simp [BloodStatus.is_terminal] at hterm
  have hupd : ∀ ns auth r, ∃ e,
      Inventory.update_status ist inow iuid ns auth r = (ist, .error e) := by
    intro ns auth r
    unfold Inventory.update_status
    cases ha : ist.admin with
    | none => exact ⟨.NotInitialized, by simp⟩
    | some adm =>
      by_cases hadm : auth = adm
      · by_cases hiexp : iu.is_expired inow
        · exact ⟨.BloodUnitExpired, by simp [hadm, hiu, hiexp]⟩
        · exact ⟨.InvalidStatusTransition, by simp [hadm, hiu, hiexp, hiterm]⟩
      · exact ⟨.Unauthorized, by simp [hadm]⟩
  refine ⟨?_, ?_, ?_, ?_, ?_, ?_, hupd, ?_, ?_, ?_⟩
  · intro b h
    unfold HealthChain.allocate_blood
    by_cases hb : HealthChain.is_blood_bank st b
    · by_cases hh : HealthChain.is_hospital st h
      · by_cases hexp : u.expiration_date ≤ now
        · exact ⟨.UnitExpired, by simp [hb, hh, hu, hexp]⟩
        · exact ⟨.InvalidStatus, by simp [hb, hh, hu, hexp, hnav]⟩
      · exact ⟨.UnauthorizedHospital, by simp [hb, hh]⟩
    · exact ⟨.Unauthorized, by simp [hb]⟩
  · intro b
    unfold HealthChain.cancel_allocation
    by_cases hb : HealthChain.is_blood_bank st b
    · exact ⟨.InvalidStatus, by simp [hb, hu, hnres]⟩
    · exact ⟨.Unauthorized, by simp [hb]⟩
  · intro b
    unfold HealthChain.initiate_transfer
    by_cases hb : HealthChain.is_blood_bank st b
    · by_cases hexp : u.expiration_date ≤ now
      · exact ⟨.UnitExpired, by simp [hb, hu, hexp]⟩
      · exact ⟨.InvalidStatus, by simp [hb, hu, hexp, hnres]⟩
    · exact ⟨.Unauthorized, by simp [hb]⟩
  · intro h
    unfold HealthChain.confirm_delivery
    by_cases hh : HealthChain.is_hospital st h
    · by_cases hrec : u.recipient_hospital = some h
      · exact ⟨.InvalidStatus, by simp [hh, hu, hrec, hnit]⟩
      · exact ⟨.Unauthorized, by simp [hh, hu, hrec]⟩
    · exact ⟨.UnauthorizedHospital, by simp [hh]⟩
  · intro b h ids hmem
    apply hostCall_of_isErr
    unfold HealthChain.batch_allocate_blood
    by_cases hlen : HealthChain.MAX_BATCH_SIZE < ids.length
    · simp [hlen, isErr]
    · by_cases hb : HealthChain.is_blood_bank st b
      · by_cases hh : HealthChain.is_hospital st h
        · simp only [hlen, hb, hh, if_neg, if_false, Bool.not_true]
          have hgo := batchAllocGo_err_of_terminal now b h ids st st.units [] uid u
            hmem hu hterm
          rcases hres : HealthChain.batchAllocGo now b h ids st st.units [] with ⟨st1, r⟩
          cases r with
          | error e => simp [hres, isErr]
          | ok p => rw [hres] at hgo; simp [isErr] at hgo
        · simp [hlen, hb, hh, isErr]
      · simp [hlen, hb, isErr]
  · intro c r hc
    have hcc : ¬(!(HealthChain.is_blood_bank st c) && !(HealthChain.is_hospital st c)) = true := by
      rcases Bool.or_eq_true_iff.mp hc with h | h <;> simp [h]
    constructor
    · simp [HealthChain.withdraw_blood, hcc, hu]
    · simp [HealthChain.withdraw_blood, hcc, hu, record_units, mapGet_mapSet_self]
  · intro auth loc
    exact hupd .Delivered auth (some loc)
  · intro auth
    exact hupd .Expired auth (some ("Marked as expired"))
  · intro ns auth r ids hmem
    apply hostCall_of_isErr
    unfold Inventory.batch_update_status
    cases ha : ist.admin with
    | none => simp [isErr]
    | some adm =>
      by_cases hadm : auth = adm
      · simp only [hadm, if_neg, if_false]
        have hgo := batchUpdGo_err_of_terminal inow ns adm r ids ist 0 iuid iu
          hmem hiu hiterm
        rcases hres : Inventory.batchUpdGo inow ns adm r ids ist 0 with ⟨st1, rr⟩
        cases rr with
        | error e => simp [hres, isErr]
        | ok p => rw [hres] at hgo; simp [isErr] at hgo
      · simp [hadm, isErr]

/-- C1 witness: the amended theorem applied to the Delivered unit of
`stTerm` (HealthChain) and the Delivered unit of `istTerm` (inventory). -/
theorem C1_amended_witness :
    (∃ e, HealthChain.allocate_blood stTerm 50 1 1 2 = (stTerm, .error e)) ∧
    (∃ e, hostCall (fun s => HealthChain.batch_allocate_blood s 50 1 [1] 2) stTerm =
      (stTerm, .error e)) ∧
    ((HealthChain.withdraw_blood stTerm 50 1 1 .Used).2 = .ok () ∧
      mapGet (HealthChain.withdraw_blood stTerm 50 1 1 .Used).1.units 1 =
        some {uTerm with status := .Discarded}) ∧
    (∃ e, Inventory.update_status istTerm 50 1 .Reserved 7 none =
      (istTerm, .error e)) ∧
    (∃ e, hostCall (fun s => Inventory.batch_update_status s 50 [1] .Reserved 7 none)
      istTerm = (istTerm, .error e)) :=
  have H := C1_amended stTerm 50 1 uTerm rfl rfl istTerm 50 1 iuTerm rfl rfl
  ⟨H.1 1 2, H.2.2.2.2.1 1 2 [1] (by decide), H.2.2.2.2.2.1 1 .Used (by decide),
   H.2.2.2.2.2.2.1 .Reserved 7 none,
   H.2.2.2.2.2.2.2.2.2 .Reserved 7 none [1] (by decide)⟩

/-! ## C3 -/

theorem record_requests (st : HealthChain.State) (now uid : Nat)
    (o n : BloodStatus) (actor : Nat) :
    (HealthChain.record_status_change st now uid o n actor).requests = st.requests := by
  simp [HealthChain.record_status_change]

theorem deliverUnit_idem (now : Nat) (v : HealthChain.BloodUnit) :
    HealthChain.deliverUnit now (HealthChain.deliverUnit now v) =
      HealthChain.deliverUnit now v := rfl

theorem fulfillGo_ok (now actor hosp : Nat) :
    ∀ (ids : List Nat) (st : HealthChain.State)
      (units units0 : List (Nat × HealthChain.BloodUnit)) (S : List Nat),
      (∀ k, mapGet units k =
        if k ∈ S then (mapGet units0 k).map (HealthChain.deliverUnit now)
        else mapGet units0 k) →
      (∀ uid ∈ ids, ∃ v, mapGet units0 uid = some v ∧
        v.recipient_hospital = some hosp) →
      ∃ st1 units1,
        HealthChain.fulfillGo now actor hosp ids st units = (st1, .ok units1) ∧
        st1.requests = st.requests ∧
        (∀ k, mapGet units1 k =
          if (k ∈ S ∨ k ∈ ids) then (mapGet units0 k).map (HealthChain.deliverUnit now)
          else mapGet units0 k) := by
  intro ids
  induction ids with
  | nil =>
    intro st units units0 S hinv _
    refine ⟨st, units, rfl, rfl, ?_⟩
    intro k
    rw [hinv k]
    exact if_congr (by simp) rfl rfl
  | cons uid0 rest ih =>
    intro st units units0 S hinv hall
    obtain ⟨v, hv0, hvrec⟩ := hall uid0 (List.mem_cons_self uid0 rest)
    have hcur : ∃ u, mapGet units uid0 = some u ∧
        u.recipient_hospital = some hosp ∧
        HealthChain.deliverUnit now u = HealthChain.deliverUnit now v := by
      rw [hinv uid0]
      by_cases hS : uid0 ∈ S
      · exact ⟨HealthChain.deliverUnit now v, by simp [hS, hv0], hvrec,
          deliverUnit_idem now v⟩
      · exact ⟨v, by simp [hS, hv0], hvrec, rfl⟩
    obtain ⟨u, hu0, hurec, hudel⟩ := hcur
    have hinv2 : ∀ k,
        mapGet (mapSet units uid0 (HealthChain.deliverUnit now u)) k =
          if k ∈ uid0 :: S then (mapGet units0 k).map (HealthChain.deliverUnit now)
          else mapGet units0 k := by
      intro k
      by_cases hk : k = uid0
      · subst hk
        rw [mapGet_mapSet_self, hudel]
        simp [hv0]
      · rw [mapGet_mapSet_ne _ _ _ _ hk, hinv k]
        exact if_congr (by simp [hk]) rfl rfl
    have hall2 : ∀ uid ∈ rest, ∃ v2, mapGet units0 uid = some v2 ∧
        v2.recipient_hospital = some hosp := by
      intro uid hmem
      exact hall uid (List.mem_cons_of_mem uid0 hmem)
    obtain ⟨st1, units1, hgo, hreqs, hinv1⟩ :=
      ih (HealthChain.record_status_change st now uid0 u.status .Delivered actor)
        (mapSet units uid0 (HealthChain.deliverUnit now u)) units0 (uid0 :: S)
        hinv2 hall2
    refine ⟨st1, units1, ?_, ?_, ?_⟩
    · simp only [HealthChain.fulfillGo, hu0]
      rw [if_neg (show ¬(u.recipient_hospital ≠ some hosp) by simp [hurec])]
      exact hgo
    · rw [hreqs, record_requests]
    · intro k
      rw [hinv1 k]
      exact if_congr (by simp [List.mem_cons]; tauto) rfl rfl

theorem fulfillGo_err (now actor hosp : Nat) :
    ∀ (ids : List Nat) (st : HealthChain.State)
      (units : List (Nat × HealthChain.BloodUnit)) (uid : Nat),
      uid ∈ ids →
      (mapGet units uid = none ∨
        ∃ v, mapGet units uid = some v ∧ v.recipient_hospital ≠ some hosp) →
      isErr (HealthChain.fulfillGo now actor hosp ids st units).2 = true := by
  intro ids
  induction ids with
  | nil => intro st units uid hmem _; simp at hmem
  | cons id0 rest ih =>
    intro st units uid hmem hbad
    cases h0 : mapGet units id0 with
    | none => simp [HealthChain.fulfillGo, h0, isErr]
    | some u0 =>
      by_cases hrec : u0.recipient_hospital = some hosp
      · have hne : uid ≠ id0 := by
          intro he; subst he
          rcases hbad with hb | ⟨v, hv, hvr⟩
          · rw [h0] at hb; cases hb
          · rw [h0] at hv; injection hv with hv2; rw [← hv2] at hvr
            exact hvr hrec
        have hmem2 : uid ∈ rest := by
          rcases List.mem_cons.mp hmem with h | h
          · exact absurd h hne
          · exact h
        have hbad2 : mapGet (mapSet units id0
              {u0 with status := .Delivered, delivery_timestamp := some now}) uid = none ∨
            ∃ v, mapGet (mapSet units id0
              {u0 with status := .Delivered, delivery_timestamp := some now}) uid = some v ∧
              v.recipient_hospital ≠ some hosp := by
          rw [mapGet_mapSet_ne _ _ _ _ hne]
          exact hbad
        simp only [HealthChain.fulfillGo, h0]
        rw [if_neg (show ¬(u0.recipient_hospital ≠ some hosp) by simp [hrec])]
        exact ih _ _ uid hmem2 hbad2
      · simp [HealthChain.fulfillGo, h0, hrec, isErr]

/-- C3: the claim asserts fulfillment requires every referenced unit to be
currently reserved for the hospital and unexpired.  It does not: in `st3`
unit 1 is Expired in status, past its expiration date, yet
`fulfill_request` succeeds and marks it Delivered, because only
`recipient_hospital` is checked. -/
theorem C3_counterexample :
    u3.expiration_date ≤ 100 ∧ u3.status = .Expired ∧
    mapGet st3.units 1 = some u3 ∧
    mapGet st3.requests 1 = some req3 ∧ req3.status = .Approved ∧
    (HealthChain.fulfill_request st3 100 9 1 [1]).2 = .ok () ∧
    (mapGet (HealthChain.fulfill_request st3 100 9 1 [1]).1.units 1).map
      (fun v => v.status) = some .Delivered ∧
    (mapGet (HealthChain.fulfill_request st3 100 9 1 [1]).1.requests 1).map
      (fun r => r.status) = some .Fulfilled :=
  ⟨by decide, rfl, rfl, rfl, rfl, rfl, rfl, rfl⟩

/-- C3 (amended): `fulfill_request` succeeds exactly when the request
exists, the contract address is a registered bank, the request's status is
Approved or InProgress, and every referenced unit id exists with
`recipient_hospital` equal to the requesting hospital — the unit's own
status and expiration are never examined.  On success every referenced
unit becomes Delivered with its delivery timestamp set, and the request
becomes Fulfilled with `fulfillment_timestamp` set to the current ledger
time and its unit list set to the fulfilling list. -/
theorem C3_amended
    (st : HealthChain.State) (now c rid : Nat) (req : HealthChain.BloodRequest)
    (ids : List Nat)
    (hreq : mapGet st.requests rid = some req)
    (hbank : HealthChain.is_blood_bank st c = true) :
    ((req.status ≠ .Approved ∧ req.status ≠ .InProgress) →
      HealthChain.fulfill_request st now c rid ids = (st, .error .InvalidStatus))
    ∧ ((req.status = .Approved ∨ req.status = .InProgress) →
       (∀ uid ∈ ids, ∃ v, mapGet st.units uid = some v ∧
          v.recipient_hospital = some req.hospital_id) →
       (HealthChain.fulfill_request st now c rid ids).2 = .ok () ∧
       (∀ uid ∈ ids, mapGet (HealthChain.fulfill_request st now c rid ids).1.units uid =
          (mapGet st.units uid).map (HealthChain.deliverUnit now)) ∧
       mapGet (HealthChain.fulfill_request st now c rid ids).1.requests rid =
         some {req with status := .Fulfilled, fulfillment_timestamp := some now,
                        reserved_unit_ids := ids})
    ∧ ((req.status = .Approved ∨ req.status = .InProgress) →
       (∃ uid, uid ∈ ids ∧ (mapGet st.units uid = none ∨
          ∃ v, mapGet st.units uid = some v ∧
            v.recipient_hospital ≠ some req.hospital_id)) →
       isErr (HealthChain.fulfill_request st now c rid ids).2 = true) := by
  refine ⟨?_, ?_, ?_⟩
  · intro hst
    simp [HealthChain.fulfill_request, hreq, hbank, hst]
  · intro hst hall
    obtain ⟨st1, units1, hgo, hreqs, hinv1⟩ :=
      fulfillGo_ok now c req.hospital_id ids st st.units st.units []
        (by intro k; simp) hall
    have hnot : ¬(req.status ≠ HealthChain.RequestStatus.Approved ∧
        req.status ≠ HealthChain.RequestStatus.InProgress) := by tauto
    refine ⟨?_, ?_, ?_⟩
    · simp [HealthChain.fulfill_request, hreq, hbank, hnot, hgo]
    · intro uid hmem
      simp only [HealthChain.fulfill_request, hreq, hbank, Bool.not_true,
        Bool.false_eq_true, if_false, if_neg hnot, hgo]
      rw [hinv1 uid]
      simp [hmem]
    · simp only [HealthChain.fulfill_request, hreq, hbank, Bool.not_true,
        Bool.false_eq_true, if_false, if_neg hnot, hgo]
      rw [mapGet_mapSet_self]
  · intro hst hbad
    obtain ⟨uid, hmem, hb⟩ := hbad
    have hnot : ¬(req.status ≠ HealthChain.RequestStatus.Approved ∧
        req.status ≠ HealthChain.RequestStatus.InProgress) := by tauto
    have herr := fulfillGo_err now c req.hospital_id ids st st.units uid hmem hb
    simp only [HealthChain.fulfill_request, hreq, hbank, Bool.not_true,
      Bool.false_eq_true, if_false, if_neg hnot]
    rcases hres : HealthChain.fulfillGo now c req.hospital_id ids st st.units
      with ⟨st1, r⟩
    cases r with
    | error e => simp [isErr]
    | ok p => rw [hres] at herr; simp [isErr] at herr

/-- C3 witness: the amended theorem applied to `st3`, whose Approved
request 1 is fulfilled with the expired, non-Reserved unit 1. -/
theorem C3_amended_witness :
    (HealthChain.fulfill_request st3 100 9 1 [1]).2 = .ok () ∧
    mapGet (HealthChain.fulfill_request st3 100 9 1 [1]).1.requests 1 =
      some {req3 with status := .Fulfilled, fulfillment_timestamp := some 100,
                      reserved_unit_ids := [1]} :=
  have H := (C3_amended st3 100 9 1 req3 [1] rfl rfl).2.1 (Or.inl rfl)
    (by intro uid hmem; rcases List.mem_singleton.mp hmem with h; subst h;
        exact ⟨u3, rfl, rfl⟩)
  ⟨H.1, H.2.2⟩

/-! ## C6 -/

theorem hostCall_err_eq {σ ε α : Type} (f : σ → σ × Except ε α) (st : σ) (e : ε)
    (h : (f st).2 = .error e) : hostCall f st = (st, .error e) := by
  unfold hostCall
  rcases hf : f st with ⟨st1, r⟩
  rw [hf] at h
  cases r with
  | error e2 => injection h with h2; subst h2; rfl
  | ok a => simp at h

theorem batchAllocGo_units (now bank hosp : Nat) :
    ∀ (ids : List Nat) (st : HealthChain.State)
      (units : List (Nat × HealthChain.BloodUnit)) (acc : List Nat),
      ((HealthChain.batchAllocGo now bank hosp ids st units acc).1).units = st.units := by
  intro ids
  induction ids with
  | nil => intro st units acc; rfl
  | cons id0 rest ih =>
    intro st units acc
    cases h0 : mapGet units id0 with
    | none => simp [HealthChain.batchAllocGo, h0]
    | some u0 =>
      by_cases hexp : u0.expiration_date ≤ now
      · simp [HealthChain.batchAllocGo, h0, hexp]
      · by_cases hav : u0.status = BloodStatus.Available
        · simp only [HealthChain.batchAllocGo, h0]
          rw [if_neg hexp,
            if_neg (show ¬(u0.status ≠ BloodStatus.Available) by simp [hav])]
          rw [ih, record_units]
        · simp [HealthChain.batchAllocGo, h0, hexp, hav]

theorem batchAllocGo_err_of_bad (now bank hosp : Nat) :
    ∀ (ids : List Nat) (st : HealthChain.State)
      (units : List (Nat × HealthChain.BloodUnit)) (acc : List Nat) (uid : Nat),
      uid ∈ ids →
      (mapGet units uid = none ∨ ∃ u, mapGet units uid = some u ∧
        (u.expiration_date ≤ now ∨ u.status ≠ BloodStatus.Available)) →
      isErr (HealthChain.batchAllocGo now bank hosp ids st units acc).2 = true := by
  intro ids
  induction ids with
  | nil => intro st units acc uid hmem _; simp at hmem
  | cons id0 rest ih =>
    intro st units acc uid hmem hbad
    cases h0 : mapGet units id0 with
    | none => simp [HealthChain.batchAllocGo, h0, isErr]
    | some u0 =>
      by_cases hexp : u0.expiration_date ≤ now
      · simp [HealthChain.batchAllocGo, h0, hexp, isErr]
      · by_cases hav : u0.status = BloodStatus.Available
        · have hne : uid ≠ id0 := by
            intro he; subst he
            rcases hbad with hb | ⟨u, hv, hdis⟩
            · rw [h0] at hb; cases hb
            · rw [h0] at hv; injection hv with hv2; subst hv2
              rcases hdis with h | h
              · exact hexp h
              · exact h hav
          have hmem2 : uid ∈ rest := by
            rcases List.mem_cons.mp hmem with h | h
            · exact absurd h hne
            · exact h
          simp only [HealthChain.batchAllocGo, h0]
          rw [if_neg hexp,
            if_neg (show ¬(u0.status ≠ BloodStatus.Available) by simp [hav])]
          apply ih _ _ _ uid hmem2
          rw [mapGet_mapSet_ne _ _ _ _ hne]
          exact hbad
        · simp [HealthChain.batchAllocGo, h0, hexp, hav, isErr]

theorem batchAllocGo_first (now bank hosp : Nat)
    (st0 : HealthChain.State) :
    ∀ (pre post : List Nat) (st : HealthChain.State)
      (units : List (Nat × HealthChain.BloodUnit)) (acc : List Nat) (uid : Nat),
      pre.Nodup → uid ∉ pre →
      (∀ p, (p ∈ pre ∨ p = uid) → mapGet units p = mapGet st0.units p) →
      (∀ p ∈ pre, ∃ u, mapGet st0.units p = some u ∧ ¬(u.expiration_date ≤ now) ∧
        u.status = BloodStatus.Available) →
      (mapGet st0.units uid = none ∨ ∃ u, mapGet st0.units uid = some u ∧
        (u.expiration_date ≤ now ∨ u.status ≠ BloodStatus.Available)) →
      (HealthChain.batchAllocGo now bank hosp (pre ++ uid :: post) st units acc).2 =
        .error (HealthChain.allocErrOf st0 now uid) := by
  intro pre
  induction pre with
  | nil =>
    intro post st units acc uid _ _ hsame hgood hbad
    have hcur : mapGet units uid = mapGet st0.units uid := hsame uid (Or.inr rfl)
    cases h0 : mapGet st0.units uid with
    | none =>
      rw [h0] at hcur
      simp [HealthChain.batchAllocGo, hcur, HealthChain.allocErrOf, h0]
    | some u =>
      rw [h0] at hcur
      by_cases hexp : u.expiration_date ≤ now
      · simp [HealthChain.batchAllocGo, hcur, HealthChain.allocErrOf, h0, hexp]
      · have hnav : u.status ≠ BloodStatus.Available := by
          rcases hbad with hb | ⟨u2, hv, hdis⟩
          · rw [h0] at hb; cases hb
          · rw [h0] at hv; injection hv with hv2; subst hv2
            rcases hdis with h | h
            · exact absurd h hexp
            · exact h
        simp [HealthChain.batchAllocGo, hcur, HealthChain.allocErrOf, h0, hexp, hnav]
  | cons p0 pre2 ih =>
    intro post st units acc uid hnd hnin hsame hgood hbad
    obtain ⟨u0, hu0, hexp0, hav0⟩ := hgood p0 (List.mem_cons_self p0 pre2)
    have hcur : mapGet units p0 = some u0 := by
      rw [hsame p0 (Or.inl (List.mem_cons_self p0 pre2))]; exact hu0
    have hnd2 : pre2.Nodup := (List.nodup_cons.mp hnd).2
    have hp0nin : p0 ∉ pre2 := (List.nodup_cons.mp hnd).1
    have hnin2 : uid ∉ pre2 := fun h => hnin (List.mem_cons_of_mem p0 h)
    have hneuid : uid ≠ p0 := by
      intro he; subst he; exact hnin (List.mem_cons_self uid pre2)
    show (HealthChain.batchAllocGo now bank hosp
      (p0 :: (pre2 ++ uid :: post)) st units acc).2 = _
    simp only [HealthChain.batchAllocGo, hcur]
    rw [if_neg hexp0,
      if_neg (show ¬(u0.status ≠ BloodStatus.Available) by simp [hav0])]
    apply ih
    · exact hnd2
    · exact hnin2
    · intro p hp
      have hpne : p ≠ p0 := by
        rcases hp with h | h
        · intro he; subst he; exact hp0nin h
        · subst h; exact hneuid
      rw [mapGet_mapSet_ne _ _ _ _ hpne]
      apply hsame
      rcases hp with h | h
      · exact Or.inl (List.mem_cons_of_mem p0 h)
      · exact Or.inr h
    · intro p hp
      exact hgood p (List.mem_cons_of_mem p0 hp)
    · exact hbad

theorem batchAllocGo_ok (now bank hosp : Nat)
    (units0 : List (Nat × HealthChain.BloodUnit)) :
    ∀ (ids : List Nat) (st : HealthChain.State)
      (units : List (Nat × HealthChain.BloodUnit)) (acc S : List Nat),
      ids.Nodup → (∀ uid ∈ ids, uid ∉ S) →
      (∀ k, mapGet units k =
        if k ∈ S then (mapGet units0 k).map (HealthChain.reserveUnit now hosp)
        else mapGet units0 k) →
      (∀ uid ∈ ids, ∃ u, mapGet units0 uid = some u ∧ ¬(u.expiration_date ≤ now) ∧
        u.status = BloodStatus.Available) →
      ∃ st1 units1,
        HealthChain.batchAllocGo now bank hosp ids st units acc =
          (st1, .ok (units1, acc ++ ids)) ∧
        st1.requests = st.requests ∧
        (∀ k, mapGet units1 k =
          if (k ∈ S ∨ k ∈ ids) then (mapGet units0 k).map (HealthChain.reserveUnit now hosp)
          else mapGet units0 k) := by
  intro ids
  induction ids with
  | nil =>
    intro st units acc S _ _ hinv _
    refine ⟨st, units, by simp [HealthChain.batchAllocGo], rfl, ?_⟩
    intro k
    rw [hinv k]
    exact if_congr (by simp) rfl rfl
  | cons uid0 rest ih =>
    intro st units acc S hnd hdisj hinv hgood
    obtain ⟨u, hu0, hexp, hav⟩ := hgood uid0 (List.mem_cons_self uid0 rest)
    have hnS : uid0 ∉ S := hdisj uid0 (List.mem_cons_self uid0 rest)
    have hcur : mapGet units uid0 = some u := by
      rw [hinv uid0, if_neg hnS]; exact hu0
    have hinv2 : ∀ k,
        mapGet (mapSet units uid0 (HealthChain.reserveUnit now hosp u)) k =
          if k ∈ uid0 :: S then (mapGet units0 k).map (HealthChain.reserveUnit now hosp)
          else mapGet units0 k := by
      intro k
      by_cases hk : k = uid0
      · subst hk
        rw [mapGet_mapSet_self]
        simp [hu0]
      · rw [mapGet_mapSet_ne _ _ _ _ hk, hinv k]
        exact if_congr (by simp [hk]) rfl rfl
    obtain ⟨st1, units1, hgo, hreqs, hinv1⟩ :=
      ih (HealthChain.record_status_change st now uid0 u.status .Reserved bank)
        (mapSet units uid0 (HealthChain.reserveUnit now hosp u)) (acc ++ [uid0])
        (uid0 :: S) (List.nodup_cons.mp hnd).2
        (by
          intro uid hmem hc
          rcases List.mem_cons.mp hc with h | h
          · subst h; exact (List.nodup_cons.mp hnd).1 hmem
          · exact hdisj uid (List.mem_cons_of_mem uid0 hmem) h)
        hinv2
        (fun uid hmem => hgood uid (List.mem_cons_of_mem uid0 hmem))
    refine ⟨st1, units1, ?_, ?_, ?_⟩
    · simp only [HealthChain.batchAllocGo, hcur]
      rw [if_neg hexp,
        if_neg (show ¬(u.status ≠ BloodStatus.Available) by simp [hav])]
      exact hgo.trans (by simp)
    · rw [hreqs, record_requests]
    · intro k
      rw [hinv1 k]
      exact if_congr (by simp [List.mem_cons]; tauto) rfl rfl

theorem hostCall_ok_eq {σ ε α : Type} (f : σ → σ × Except ε α) (st : σ)
    (h : isErr (f st).2 = false) : hostCall f st = f st := by
  unfold hostCall
  rcases hf : f st with ⟨st1, r⟩
  rw [hf] at h
  cases r with
  | error e => simp [isErr] at h
  | ok a => rfl

theorem goodUnit_spec (st : HealthChain.State) (now uid : Nat) :
    HealthChain.goodUnit st now uid = true ↔
      ∃ u, mapGet st.units uid = some u ∧ ¬(u.expiration_date ≤ now) ∧
        u.status = BloodStatus.Available := by
  unfold HealthChain.goodUnit
  cases h : mapGet st.units uid with
  | none => simp
  | some u => simp [Nat.not_le]

theorem goodUnit_false (st : HealthChain.State) (now uid : Nat) :
    HealthChain.goodUnit st now uid = false ↔
      (mapGet st.units uid = none ∨ ∃ u, mapGet st.units uid = some u ∧
        (u.expiration_date ≤ now ∨ u.status ≠ BloodStatus.Available)) := by
  unfold HealthChain.goodUnit
  cases h : mapGet st.units uid with
  | none => simp
  | some u =>
    simp [Nat.not_lt, or_comm]
    constructor
    · intro h1
      by_cases hlt : now < u.expiration_date
      · exact Or.inl (h1 hlt)
      · exact Or.inr (by omega)
    · intro h1 h2
      rcases h1 with h3 | h3
      · exact h3
      · omega

/-- C6: the claim asserts that if every element of the id list is valid
(exists, unexpired, Available in the pre-call state) the batch succeeds.
With a duplicated id every element is valid in the pre-call state, yet the
call fails (the second occurrence finds the unit already Reserved): on
`st6`, whose only unit 1 is Available and unexpired, `[1, 1]` fails with
`InvalidStatus` — atomically, the state is unchanged. -/
theorem C6_counterexample :
    HealthChain.goodUnit st6 50 1 = true ∧
    hostCall (fun s => HealthChain.batch_allocate_blood s 50 1 [1, 1] 2) st6 =
      (st6, .error .InvalidStatus) :=
  ⟨rfl, rfl⟩

/-- C6 (amended): `batch_allocate_blood` is atomic.  If the listed ids are
pairwise distinct and every one is valid (exists, unexpired, Available),
the call succeeds, returns exactly the input ids and reserves every listed
unit for the hospital; if any element is invalid — or an id repeats — the
whole call fails, with the first invalid element's error (not found /
expired / not Available), and the committed state is exactly the pre-call
state, so no unit's status, recipient, allocation timestamp or history
differs; even on the raw, uncommitted execution the units map is never
written on a failing call. -/
theorem C6_amended
    (st : HealthChain.State) (now bank hosp : Nat) (ids : List Nat)
    (hlen : ids.length ≤ HealthChain.MAX_BATCH_SIZE)
    (hb : HealthChain.is_blood_bank st bank = true)
    (hh : HealthChain.is_hospital st hosp = true) :
    (ids.Nodup → (∀ uid ∈ ids, HealthChain.goodUnit st now uid = true) →
      (hostCall (fun s => HealthChain.batch_allocate_blood s now bank ids hosp) st).2 =
        .ok ids ∧
      (∀ uid ∈ ids,
        mapGet (hostCall (fun s => HealthChain.batch_allocate_blood s now bank ids hosp)
          st).1.units uid = (mapGet st.units uid).map (HealthChain.reserveUnit now hosp)))
    ∧ ((∃ uid ∈ ids, HealthChain.goodUnit st now uid = false) →
        ∃ e, hostCall (fun s => HealthChain.batch_allocate_blood s now bank ids hosp) st =
          (st, .error e))
    ∧ (∀ pre uid post, ids = pre ++ uid :: post → pre.Nodup → uid ∉ pre →
        (∀ p ∈ pre, HealthChain.goodUnit st now p = true) →
        HealthChain.goodUnit st now uid = false →
        hostCall (fun s => HealthChain.batch_allocate_blood s now bank ids hosp) st =
          (st, .error (HealthChain.allocErrOf st now uid)))
    ∧ (isErr (HealthChain.batch_allocate_blood st now bank ids hosp).2 = true →
        (HealthChain.batch_allocate_blood st now bank ids hosp).1.units = st.units) := by
  have hlen2 : ¬(HealthChain.MAX_BATCH_SIZE < ids.length) := by omega
  refine ⟨?_, ?_, ?_, ?_⟩
  · intro hnd hgood
    obtain ⟨st1, units1, hgo, hreqs, hinv1⟩ :=
      batchAllocGo_ok now bank hosp st.units ids st st.units [] [] hnd
        (by intro uid _; simp)
        (by intro k; simp)
        (by intro uid hmem; exact (goodUnit_spec st now uid).mp (hgood uid hmem))
    have hraw : HealthChain.batch_allocate_blood st now bank ids hosp =
        ({st1 with units := units1}, .ok ids) := by
      simp only [HealthChain.batch_allocate_blood, hlen2, hb, hh, if_neg, if_false,
        Bool.not_true, hgo]
      simp
    have hcall : hostCall (fun s => HealthChain.batch_allocate_blood s now bank ids hosp) st
        = ({st1 with units := units1}, .ok ids) := by
      rw [hostCall_ok_eq _ _ (by rw [hraw]; simp [isErr])]
      exact hraw
    constructor
    · rw [hcall]
    · intro uid hmem
      rw [hcall]
      show mapGet units1 uid = _
      rw [hinv1 uid]
      simp [hmem]
  · intro hbad
    obtain ⟨uid, hmem, hfalse⟩ := hbad
    apply hostCall_of_isErr
    simp only [HealthChain.batch_allocate_blood, hlen2, hb, hh, if_neg, if_false,
      Bool.not_true]
    have herr := batchAllocGo_err_of_bad now bank hosp ids st st.units [] uid hmem
      ((goodUnit_false st now uid).mp hfalse)
    rcases hres : HealthChain.batchAllocGo now bank hosp ids st st.units [] with ⟨st1, r⟩
    cases r with
    | error e => simp [isErr]
    | ok p => rw [hres] at herr; simp [isErr] at herr
  · intro pre uid post hsplit hnd hnin hpre hfalse
    apply hostCall_err_eq
    subst hsplit
    have hfirst := batchAllocGo_first now bank hosp st pre post st st.units [] uid
      hnd hnin (by intro p _; rfl)
      (by intro p hp; exact (goodUnit_spec st now p).mp (hpre p hp))
      ((goodUnit_false st now uid).mp hfalse)
    simp only [HealthChain.batch_allocate_blood, hlen2, hb, hh, Bool.not_true,
      Bool.false_eq_true, if_false]
    rcases hres : HealthChain.batchAllocGo now bank hosp (pre ++ uid :: post) st
      st.units [] with ⟨st1, r⟩
    rw [hres] at hfirst
    cases r with
    | error e =>
      show Except.error e = Except.error (HealthChain.allocErrOf st now uid)
      simpa using hfirst
    | ok p => simp at hfirst
  · intro herr
    simp only [HealthChain.batch_allocate_blood, hlen2, hb, hh, Bool.not_true,
      Bool.false_eq_true, if_false] at herr ⊢
    rcases hres : HealthChain.batchAllocGo now bank hosp ids st st.units [] with ⟨st1, r⟩
    rw [hres] at herr
    cases r with
    | error e =>
      show st1.units = st.units
      have h2 := batchAllocGo_units now bank hosp ids st st.units []
      rw [hres] at h2
      exact h2
    | ok p => simp [isErr] at herr

/-- C6 witness: the amended theorem applied to `st6b` — ids `[1, 2]` fail
with unit 2's `InvalidStatus` (already Reserved), committing nothing,
while ids `[1]` succeed and reserve unit 1. -/
theorem C6_amended_witness :
    hostCall (fun s => HealthChain.batch_allocate_blood s 50 1 [1, 2] 2) st6b =
      (st6b, .error (HealthChain.allocErrOf st6b 50 2)) ∧
    (hostCall (fun s => HealthChain.batch_allocate_blood s 50 1 [1] 2) st6b).2 =
      .ok [1] :=
  ⟨(C6_amended st6b 50 1 2 [1, 2] (by decide) rfl rfl).2.2.1 [1] 2 [] rfl
      (by decide) (by decide) (by decide) rfl,
   ((C6_amended st6b 50 1 2 [1] (by decide) rfl rfl).1 (by decide)
      (by decide)).1⟩

/-! ## C9 -/

theorem availLoop_spec (bt : BloodType) (required now : Nat)
    (hreq : required ≤ HealthChain.U32MAX) :
    ∀ (l : List HealthChain.BloodUnit) (total : Nat),
      total ≤ HealthChain.U32MAX →
      (HealthChain.availLoop bt required now l total = true ↔
        required ≤ min (total + HealthChain.sumAvail bt now l) HealthChain.U32MAX) := by
  intro l
  induction l with
  | nil =>
    intro total htot
    simp only [HealthChain.availLoop, HealthChain.sumAvail, List.filter_nil,
      List.map_nil, List.sum_nil, Nat.add_zero, decide_eq_true_eq]
    omega
  | cons u rest ih =>
    intro total htot
    by_cases hm : (decide (u.blood_type = bt) && decide (u.status = BloodStatus.Available)
        && decide (now < u.expiration_date)) = true
    · simp only [HealthChain.availLoop, hm, if_true]
      have hsum : HealthChain.sumAvail bt now (u :: rest) =
          u.quantity + HealthChain.sumAvail bt now rest := by
        simp [HealthChain.sumAvail, List.filter_cons, hm]
      rw [hsum]
      by_cases hearly : required ≤ min (total + u.quantity) HealthChain.U32MAX
      · simp only [hearly, if_true, true_iff]
        omega
      · simp only [hearly, if_false]
        rw [ih (min (total + u.quantity) HealthChain.U32MAX) (by omega)]
        omega
    · simp only [HealthChain.availLoop, hm, if_false]
      have hsum : HealthChain.sumAvail bt now (u :: rest) =
          HealthChain.sumAvail bt now rest := by
        simp only [HealthChain.sumAvail, List.filter_cons]
        rw [if_neg (by simpa using hm)]
      rw [hsum]
      exact ih total htot

/-- C9: `check_availability(t, n)` returns true exactly when the
mathematical sum of the quantities of Available, strictly unexpired units
of blood type `t` reaches `n` (for any u32 value `n`); in particular, on
an empty inventory it returns false for every `n > 0`. -/
theorem C9_check_availability (st : HealthChain.State) (now : Nat)
    (bt : BloodType) (required : Nat) (hreq : required ≤ HealthChain.U32MAX) :
    (HealthChain.check_availability st now bt required = true ↔
      required ≤ HealthChain.sumAvail bt now (st.units.map Prod.snd))
    ∧ (st.units = [] → 0 < required →
        HealthChain.check_availability st now bt required = false) := by
  have hmain := availLoop_spec bt required now hreq (st.units.map Prod.snd) 0
    (by omega)
  constructor
  · unfold HealthChain.check_availability
    rw [hmain, Nat.zero_add]
    constructor
    · intro h
      exact le_trans h (Nat.min_le_left _ _)
    · intro h
      exact le_min_iff.mpr ⟨h, hreq⟩
  · intro hempty hpos
    unfold HealthChain.check_availability
    rw [hempty]
    simp only [List.map_nil, HealthChain.availLoop, decide_eq_false_iff_not]
    omega

/-- C9 witness: on `st9` (units of 100 ml and 50 ml O+), 120 ml of O+ at
time 50 is available, and on the empty state `st7` no positive quantity
is. -/
theorem C9_check_availability_witness :
    (HealthChain.check_availability st9 50 .OPositive 120 = true ↔
      120 ≤ HealthChain.sumAvail .OPositive 50 (st9.units.map Prod.snd)) ∧
    HealthChain.check_availability st7 0 .OPositive 5 = false :=
  ⟨(C9_check_availability st9 50 .OPositive 120 (by decide)).1,
   (C9_check_availability st7 0 .OPositive 5 (by decide)).2 rfl (by decide)⟩

/-! ## C8 -/

theorem onePass_perm (l : List HealthChain.BloodUnit) :
    List.Perm (HealthChain.onePass l) l := by
  induction l using HealthChain.onePass.induct with
  | case1 => simp [HealthChain.onePass]
  | case2 a => simp [HealthChain.onePass]
  | case3 a b t h ih =>
    rw [HealthChain.onePass, if_pos h]
    exact (ih.cons b).trans (List.Perm.swap a b t)
  | case4 a b t h ih =>
    rw [HealthChain.onePass, if_neg h]
    exact ih.cons a

theorem onePass_filter_exp (e : Nat) (l : List HealthChain.BloodUnit) :
    (HealthChain.onePass l).filter (fun u => decide (u.expiration_date = e)) =
      l.filter (fun u => decide (u.expiration_date = e)) := by
  induction l using HealthChain.onePass.induct with
  | case1 => simp [HealthChain.onePass]
  | case2 a => simp [HealthChain.onePass]
  | case3 a b t h ih =>
    rw [HealthChain.onePass, if_pos h]
    by_cases pa : a.expiration_date = e
    · by_cases pb : b.expiration_date = e
      · omega
      · simp only [List.filter_cons, ih, List.filter_cons] at *
        simp [pa, pb]
    · by_cases pb : b.expiration_date = e
      · simp only [List.filter_cons, ih, List.filter_cons] at *
        simp [pa, pb]
      · simp only [List.filter_cons, ih, List.filter_cons] at *
        simp [pa, pb]
  | case4 a b t h ih =>
    rw [HealthChain.onePass, if_neg h]
    simp only [List.filter_cons, ih, List.filter_cons]

theorem onePass_max (l : List HealthChain.BloodUnit) (hne : l ≠ []) :
    ∃ l2 x, HealthChain.onePass l = l2 ++ [x] ∧
      ∀ y ∈ l, y.expiration_date ≤ x.expiration_date := by
  induction l using HealthChain.onePass.induct with
  | case1 => exact absurd rfl hne
  | case2 a =>
    refine ⟨[], a, by simp [HealthChain.onePass], ?_⟩
    intro y hy
    rcases List.mem_singleton.mp hy with h
    subst h; exact le_refl _
  | case3 a b t h ih =>
    obtain ⟨l2, x, heq, hmax⟩ := ih (by simp)
    refine ⟨b :: l2, x, ?_, ?_⟩
    · rw [HealthChain.onePass, if_pos h, heq]; rfl
    · intro y hy
      rcases List.mem_cons.mp hy with h1 | h1
      · subst h1; exact hmax y (List.mem_cons_self y t)
      · rcases List.mem_cons.mp h1 with h2 | h2
        · subst h2
          exact le_trans (le_of_lt h) (hmax a (List.mem_cons_self a t))
        · exact hmax y (List.mem_cons_of_mem a h2)
  | case4 a b t h ih =>
    obtain ⟨l2, x, heq, hmax⟩ := ih (by simp)
    refine ⟨a :: l2, x, ?_, ?_⟩
    · rw [HealthChain.onePass, if_neg h, heq]; rfl
    · intro y hy
      rcases List.mem_cons.mp hy with h1 | h1
      · subst h1
        exact le_trans (le_of_not_lt h) (hmax b (List.mem_cons_self b t))
      · exact hmax y h1

theorem passes_perm :
    ∀ (k : Nat) (l : List HealthChain.BloodUnit),
      List.Perm (HealthChain.passes k l) l := by
  intro k
  induction k with
  | zero => intro l; exact List.Perm.refl l
  | succ k ih =>
    intro l
    have h1 := ih (HealthChain.onePass (l.take (k + 1)) ++ l.drop (k + 1))
    have h2 : List.Perm (HealthChain.onePass (l.take (k + 1)) ++ l.drop (k + 1)) l := by
      have h3 := (onePass_perm (l.take (k + 1))).append_right (l.drop (k + 1))
      rw [List.take_append_drop] at h3
      exact h3
    exact h1.trans h2

theorem passes_filter_exp (e : Nat) :
    ∀ (k : Nat) (l : List HealthChain.BloodUnit),
      (HealthChain.passes k l).filter (fun u => decide (u.expiration_date = e)) =
        l.filter (fun u => decide (u.expiration_date = e)) := by
  intro k
  induction k with
  | zero => intro l; rfl
  | succ k ih =>
    intro l
    have h1 := ih (HealthChain.onePass (l.take (k + 1)) ++ l.drop (k + 1))
    rw [show HealthChain.passes (k + 1) l =
      HealthChain.passes k (HealthChain.onePass (l.take (k + 1)) ++ l.drop (k + 1))
      from rfl, h1, List.filter_append, onePass_filter_exp, ← List.filter_append,
      List.take_append_drop]

theorem passes_length (k : Nat) (l : List HealthChain.BloodUnit) :
    (HealthChain.passes k l).length = l.length :=
  (passes_perm k l).length_eq

theorem passes_sorted :
    ∀ (k : Nat) (l : List HealthChain.BloodUnit),
      k ≤ l.length →
      List.Pairwise (fun a b => a.expiration_date ≤ b.expiration_date) (l.drop k) →
      (∀ x ∈ l.take k, ∀ y ∈ l.drop k, x.expiration_date ≤ y.expiration_date) →
      List.Pairwise (fun a b => a.expiration_date ≤ b.expiration_date)
        (HealthChain.passes k l) := by
  intro k
  induction k with
  | zero => intro l _ hsort _; simpa using hsort
  | succ k ih =>
    intro l hk hsort hdom
    have htake_ne : l.take (k + 1) ≠ [] := by
      have hlt : (l.take (k + 1)).length = k + 1 := by
        rw [List.length_take]; omega
      intro hc; rw [hc] at hlt; simp at hlt
    obtain ⟨l2, x, heq, hmax⟩ := onePass_max (l.take (k + 1)) htake_ne
    have hlen2 : l2.length = k := by
      have h1 : (HealthChain.onePass (l.take (k + 1))).length = (l.take (k + 1)).length :=
        (onePass_perm _).length_eq
      rw [heq, List.length_append, List.length_take] at h1
      simp at h1
      omega
    have hxmem : x ∈ l.take (k + 1) := by
      have hx : x ∈ HealthChain.onePass (l.take (k + 1)) := by rw [heq]; simp
      exact (onePass_perm _).mem_iff.mp hx
    have hl1eq : HealthChain.onePass (l.take (k + 1)) ++ l.drop (k + 1) =
        l2 ++ (x :: l.drop (k + 1)) := by
      rw [heq]; simp
    have hlen1 : (HealthChain.onePass (l.take (k + 1)) ++ l.drop (k + 1)).length =
        l.length := by
      rw [List.length_append, (onePass_perm _).length_eq, List.length_take,
        List.length_drop]
      omega
    have hdrop1 : (HealthChain.onePass (l.take (k + 1)) ++ l.drop (k + 1)).drop k =
        x :: l.drop (k + 1) := by
      rw [hl1eq, ← hlen2]
      exact List.drop_left l2 _
    have htake1 : (HealthChain.onePass (l.take (k + 1)) ++ l.drop (k + 1)).take k = l2 := by
      rw [hl1eq, ← hlen2]
      exact List.take_left l2 _
    show List.Pairwise _ (HealthChain.passes k
      (HealthChain.onePass (l.take (k + 1)) ++ l.drop (k + 1)))
    apply ih
    · omega
    · rw [hdrop1]
      apply List.Pairwise.cons
      · intro y hy
        exact hdom x hxmem y hy
      · exact hsort
    · intro a ha y hy
      rw [htake1] at ha
      rw [hdrop1] at hy
      have hamem : a ∈ l.take (k + 1) := by
        have ham : a ∈ HealthChain.onePass (l.take (k + 1)) := by
          rw [heq]; exact List.mem_append_left _ ha
        exact (onePass_perm _).mem_iff.mp ham
      rcases List.mem_cons.mp hy with h1 | h1
      · subst h1; exact hmax a hamem
      · exact hdom a hamem y h1

theorem bubbleSort_sorted (l : List HealthChain.BloodUnit) :
    List.Pairwise (fun a b => a.expiration_date ≤ b.expiration_date)
      (HealthChain.bubbleSort l) := by
  apply passes_sorted l.length l (le_refl _)
  · rw [List.drop_length]; exact List.Pairwise.nil
  · intro x _ y hy
    rw [List.drop_length] at hy
    simp at hy

theorem bubbleSort_perm (l : List HealthChain.BloodUnit) :
    List.Perm (HealthChain.bubbleSort l) l :=
  passes_perm l.length l

theorem bubbleSort_filter_exp (e : Nat) (l : List HealthChain.BloodUnit) :
    (HealthChain.bubbleSort l).filter (fun u => decide (u.expiration_date = e)) =
      l.filter (fun u => decide (u.expiration_date = e)) :=
  passes_filter_exp e l.length l

theorem bubbleSort_length (l : List HealthChain.BloodUnit) :
    (HealthChain.bubbleSort l).length = l.length :=
  passes_length l.length l

/-- C8: `query_by_blood_type(t, q, m)` returns exactly the units of blood
type `t` that are Available, strictly unexpired and of quantity at least
`q` (a permutation of the filtered map-iteration sequence), sorted
ascending by expiration timestamp, with ties kept in map-iteration
(insertion/id) order — for every expiration value the subsequence with
that value equals the filtered input's subsequence; `m = 0` returns all
matches and `m = N > 0` returns the first `N` of the `m = 0` result. -/
theorem C8_query_by_blood_type (st : HealthChain.State) (now : Nat)
    (bt : BloodType) (q m : Nat) :
    List.Pairwise (fun a b => a.expiration_date ≤ b.expiration_date)
      (HealthChain.query_by_blood_type st now bt q 0)
    ∧ List.Perm (HealthChain.query_by_blood_type st now bt q 0)
        ((st.units.map Prod.snd).filter (HealthChain.matchesQuery bt q now))
    ∧ (∀ e, (HealthChain.query_by_blood_type st now bt q 0).filter
          (fun u => decide (u.expiration_date = e)) =
        ((st.units.map Prod.snd).filter (HealthChain.matchesQuery bt q now)).filter
          (fun u => decide (u.expiration_date = e)))
    ∧ HealthChain.query_by_blood_type st now bt q m =
        (if m = 0 then HealthChain.query_by_blood_type st now bt q 0
         else (HealthChain.query_by_blood_type st now bt q 0).take m) := by
  set L := (st.units.map Prod.snd).filter (HealthChain.matchesQuery bt q now) with hL
  have hq0 : HealthChain.query_by_blood_type st now bt q 0 =
      HealthChain.bubbleSort L := by
    show (HealthChain.bubbleSort L).take
      (if (0 : Nat) = 0 then L.length else min 0 L.length) = HealthChain.bubbleSort L
    rw [if_pos rfl, ← bubbleSort_length L, List.take_length]
  refine ⟨?_, ?_, ?_, ?_⟩
  · rw [hq0]; exact bubbleSort_sorted _
  · rw [hq0]; exact bubbleSort_perm _
  · intro e; rw [hq0]; exact bubbleSort_filter_exp e _
  · by_cases hm : m = 0
    · subst hm; simp
    · rw [if_neg hm, hq0]
      show (HealthChain.bubbleSort L).take
        (if m = 0 then L.length else min m L.length) = (HealthChain.bubbleSort L).take m
      rw [if_neg hm]
      by_cases hle : m ≤ L.length
      · rw [Nat.min_eq_left hle]
      · have hgt : L.length ≤ m := by omega
        rw [Nat.min_eq_right hgt, ← bubbleSort_length L, List.take_length,
          List.take_of_length_le]
        rw [bubbleSort_length]
        omega
